import Mathlib

/-!
LazyFS (zero-inst/lazyfs.c): fetch protocol, helper interface and manifest parser

A shallow embedding of the kernel module `lazyfs.c` and of the request parser of
its user-space helper (`zero-install.c`).

Conventions of the embedding

* A virtual dentry (VN) is named by a natural number; per-dentry data
  (`lazy_de_info`) is a family of functions indexed by that number.
* C `int` flags that only ever hold 0 or 1 (`have_helper`, `fetching`) are `Bool`.
* Error returns are negative errno values, as in the source (`-EIO`, ...).
* Bytes are natural numbers; a C string is a list of bytes.
* Code between two suspension points (`schedule()`) is one atomic step: the
  module relies on the non-preemptive kernel for that, the spin lock
  `fetching_lock` only brackets the queue updates.
* `BUG()` is an explicit outcome (`bug`, or `none` for state transformers).
* Reference counts (`dget`/`dput`, `mntget`) and wait-queue membership are not
  modelled: `wake_up_interruptible` only makes sleeping tasks runnable, which
  the step relation allows at any time.
-/

namespace LazyFS

/-! ## Constants -/

/-- Errno `EIO`. -/
def EIO : Int := 5
/-- Errno `E2BIG`. -/
def E2BIG : Int := 7
/-- Errno `ENOMEM`. -/
def ENOMEM : Int := 12
/-- Errno `EBUSY`. -/
def EBUSY : Int := 16
/-- Errno `EINVAL`. -/
def EINVAL : Int := 22
/-- Errno `ERESTARTSYS` (kernel internal). -/
def ERESTARTSYS : Int := 512

/-- File type mask of `i_mode`. -/
def S_IFMT : Nat := 0o170000
/-- Regular file type bits. -/
def S_IFREG : Nat := 0o100000
/-- Directory type bits. -/
def S_IFDIR : Nat := 0o040000
/-- Symbolic link type bits. -/
def S_IFLNK : Nat := 0o120000

/-- The macro `S_ISDIR`. -/
def S_ISDIR (m : Nat) : Bool := (m &&& S_IFMT) == S_IFDIR
/-- The macro `S_ISREG`. -/
def S_ISREG (m : Nat) : Bool := (m &&& S_IFMT) == S_IFREG

/-! ## Fetch protocol: state -/

/-- A dentry of the host file system: an identity and, when the dentry is
positive, the `i_mode` of its inode (`d_inode == NULL` is `none`). -/
structure HostDentry where
  id : Nat
  d_inode : Option Nat
deriving DecidableEq

/-- A `struct dentry *` result of the host: `ERR_PTR(e)` (`IS_ERR`) or a dentry. -/
inductive DentryPtr where
  | error (e : Int)
  | ok (d : HostDentry)
deriving DecidableEq

/-- The shared state the fetch protocol works on.

* `have_helper` is `sbi->have_helper`;
* `to_helper` is the list `to_helper`, first element = `to_helper.next`;
* `fetching v` is `info->fetching` of dentry `v`;
* `host_dentry v` is `info->host_dentry` of dentry `v`;
* `handles` holds, for every open request file created by `send_to_helper`,
  the dentry it refers to (`file->f_dentry`);
* `d_parent v` and `i_mode v` are `dentry->d_parent` and
  `dentry->d_inode->i_mode`;
* `lookup_hash v` is what `lookup_hash(&dentry->d_name, parent_host)` returns
  at this moment: an error (`IS_ERR`) or a host dentry, possibly negative. -/
structure State where
  have_helper : Bool
  to_helper : List Nat
  fetching : Nat → Bool
  host_dentry : Nat → Option HostDentry
  handles : List Nat
  d_parent : Nat → Nat
  i_mode : Nat → Nat
  lookup_hash : Nat → DentryPtr

/-- What a producer did, in program order. -/
inductive Event where
  /-- One call of `lookup_hash`, with its result. -/
  | lookup (r : DentryPtr)
  /-- The dentry was linked on `to_helper` (and the helper woken). -/
  | enqueue
  /-- The wait loop saw `info->fetching == 0` and left. -/
  | idle
  /-- The wait loop called `schedule()`. -/
  | sleep
deriving DecidableEq

/-- How far a call of `get_host_dentry` got. -/
inductive PResult where
  /-- The call returned a host dentry or an `ERR_PTR`. -/
  | ret (r : DentryPtr)
  /-- The call is suspended in `schedule()` inside the wait loop. -/
  | asleep
  /-- The call reached `BUG()` (or dereferenced NULL). -/
  | bug
  /-- The model ran out of fuel. -/
  | nofuel
deriving DecidableEq

/-- Result of running a producer up to its next suspension point. -/
structure Out where
  res : PResult
  st : State
  log : List Event

/-- Put earlier events in front of the log of a later part. -/
def Out.pre (l : List Event) (o : Out) : Out :=
  { o with log := l ++ o.log }

/-! ## Fetch protocol: the producer, `get_host_dentry` -/

/-- The function `set_host_dentry`: `none` is `BUG()`. -/
def set_host_dentry (s : State) (v : Nat) (host : HostDentry) : Option State :=
  if (s.host_dentry v).isSome then none
  else if !S_ISDIR (s.i_mode v) then none
  else some { s with host_dentry := Function.update s.host_dentry v (some host) }

/-- The end of `get_host_dentry`, after the `do ... while (1)` loop was left
by `break` with `host_dentry` (lines 474-491). -/
def get_host_dentry_tail (s : State) (v : Nat) (host_dentry : HostDentry) : Out :=
  match host_dentry.d_inode with
  | none => ⟨.bug, s, []⟩
  | some host_mode =>
    if S_ISDIR (s.i_mode v) then
      if !S_ISDIR host_mode then ⟨.ret (.error (- EIO)), s, []⟩
      else
        match set_host_dentry s v host_dentry with
        | none => ⟨.bug, s, []⟩
        | some s1 => ⟨.ret (.ok host_dentry), s1, []⟩
    else if S_ISREG (s.i_mode v) then
      if !S_ISREG host_mode then ⟨.ret (.error (- EIO)), s, []⟩
      else ⟨.ret (.ok host_dentry), s, []⟩
    else ⟨.bug, s, []⟩

/-- One pass of the inner `while (1)` loop of `get_host_dentry` (lines 451-470);
`k` is the code that runs after the loop is left by `break`, `sig` is
`signal_pending(current)`. -/
def wait_loop (k : State → Out) (s : State) (v : Nat) (sig : Bool) : Out :=
  if s.fetching v = false then (k s).pre [.idle]
  else if sig then ⟨.ret (.error (-ERESTARTSYS)), s, []⟩
  else ⟨.asleep, s, [.sleep]⟩

/-- The `do ... while (1)` loop of `get_host_dentry` (lines 404-472), entered
with the given value of `first_try`. -/
def get_host_dentry_loop : Nat → Bool → State → Nat → Bool → Out
  | 0, _, s, _, _ => ⟨.nofuel, s, []⟩
  | fuel + 1, first_try, s, v, sig =>
    match s.host_dentry v with
    | some hd => get_host_dentry_tail s v hd
    | none =>
      match s.lookup_hash v with
      | .error e => ⟨.ret (.error e), s, [.lookup (.error e)]⟩
      | .ok hd =>
        if hd.d_inode.isSome then
          (get_host_dentry_tail s v hd).pre [.lookup (.ok hd)]
        else if !first_try then
          ⟨.ret (.error (- EIO)), s, [.lookup (.ok hd)]⟩
        else
          let had_helper := s.have_helper
          let start_fetching := !s.fetching v && s.have_helper
          let s1 : State :=
            if start_fetching then
              { s with fetching := Function.update s.fetching v true,
                       to_helper := v :: s.to_helper }
            else s
          if !had_helper then
            ⟨.ret (.error (- EIO)), s1, [.lookup (.ok hd)]⟩
          else
            (wait_loop (fun s2 => get_host_dentry_loop fuel false s2 v sig) s1 v sig).pre
              (if start_fetching then [.lookup (.ok hd), .enqueue] else [.lookup (.ok hd)])

/-- The function `get_host_dentry`, run from its entry to its return or to its
first `schedule()`. -/
def get_host_dentry (s : State) (v : Nat) (sig : Bool) : Out :=
  match s.host_dentry v with
  | some hd => ⟨.ret (.ok hd), s, []⟩
  | none =>
    match s.host_dentry (s.d_parent v) with
    | none => ⟨.bug, s, []⟩
    | some _ => get_host_dentry_loop 2 true s v sig

/-- A call of `get_host_dentry` that sleeps in `schedule()` is made runnable
again: it continues at the top of the wait loop, with `first_try == 0`. -/
def get_host_dentry_wake (s : State) (v : Nat) (sig : Bool) : Out :=
  wait_loop (fun s2 => get_host_dentry_loop 1 false s2 v sig) s v sig

/-- The text that `snprintf(number, sizeof(number), "%d", fd)` produces for a
non-negative `fd`, without the terminating NUL. -/
def snprintf_d (fd : Nat) : List Nat :=
  (Nat.toDigits 10 fd).map Char.toNat

/-- Result of `send_to_helper`: the value returned, the bytes copied to the
user buffer by `copy_to_user`, and the state. -/
structure Sent where
  ret : Int
  buffer : List Nat
  st : State

/-- The function `send_to_helper`. `filp_ok` tells whether `get_empty_filp`
succeeded and `fd` is the value of `get_unused_fd()` (negative on failure).
On success the new file, which refers to `dentry`, is installed in the
helper's descriptor table. -/
def send_to_helper (s : State) (dentry : Nat) (filp_ok : Bool) (fd : Int) : Sent :=
  if !filp_ok then ⟨-ENOMEM, [], s⟩
  else if fd < 0 then ⟨fd, [], s⟩
  else
    let number := snprintf_d fd.toNat
    let len : Int := number.length
    ⟨len + 1, number ++ [0], { s with handles := dentry :: s.handles }⟩

/-- How a read of the helper control file ended. -/
inductive RResult where
  /-- The read returned this value. -/
  | ret (n : Int)
  /-- The read is suspended in `schedule()`. -/
  | asleep
  /-- The read reached `BUG()`. -/
  | bug
deriving DecidableEq

/-- Result of `lazyfs_helper_read`: how it ended, the bytes written to the
reader's buffer, the dentry handed to `send_to_helper` (the one the source
prints with "Handle '%s'"), and the state. -/
structure Read where
  res : RResult
  buffer : List Nat
  sent : Option Nat
  st : State

/-- The function `lazyfs_helper_read`, run up to its return or its first
`schedule()`; `sig` is `signal_pending(current)`. -/
def lazyfs_helper_read (s : State) (count : Nat) (sig : Bool) (filp_ok : Bool)
    (fd : Int) : Read :=
  if count < 20 then ⟨.ret (-EINVAL), [], none, s⟩
  else
    match s.to_helper with
    | info :: rest =>
      let s1 : State := { s with to_helper := rest }
      let r := send_to_helper s1 info filp_ok fd
      if r.ret < 0 then
        if r.st.fetching info != true then ⟨.bug, r.buffer, some info, r.st⟩
        else
          ⟨.ret r.ret, r.buffer, some info,
            { r.st with fetching := Function.update r.st.fetching info false }⟩
      else ⟨.ret r.ret, r.buffer, some info, r.st⟩
    | [] =>
      if sig then ⟨.ret (-ERESTARTSYS), [], none, s⟩
      else ⟨.asleep, [], none, s⟩

/-- The function `lazyfs_handle_release`, called when the request file that
refers to `dentry` is closed for the last time; the file leaves the
descriptor table. `none` is `BUG()`. -/
def lazyfs_handle_release (s : State) (dentry : Nat) : Option State :=
  if !s.fetching dentry then none
  else
    some { s with fetching := Function.update s.fetching dentry false,
                  handles := s.handles.erase dentry }

/-- The function `lazyfs_helper_open`: the value returned and the state. -/
def lazyfs_helper_open (s : State) : Int × State :=
  if s.have_helper then (-EBUSY, s)
  else (0, { s with have_helper := true })

/-- The `while (!list_empty(&to_helper))` loop of `lazyfs_helper_release`,
on the list and the `fetching` flags; `none` is `BUG()`. -/
def discard : List Nat → (Nat → Bool) → Option (Nat → Bool)
  | [], fetching => some fetching
  | info :: rest, fetching =>
    if fetching info != true then none
    else discard rest (Function.update fetching info false)

/-- The function `lazyfs_helper_release`; `none` is `BUG()`. -/
def lazyfs_helper_release (s : State) : Option State :=
  match discard s.to_helper s.fetching with
  | none => none
  | some fetching =>
    if s.have_helper != true then none
    else some { s with to_helper := [], fetching := fetching, have_helper := false }

/-! ## Fetch protocol: reachable states -/

/-- State after mount (`lazyfs_read_super`): no helper, nothing queued,
nothing being fetched, no request file open. -/
def Init (s : State) : Prop :=
  s.have_helper = false ∧ s.to_helper = [] ∧ (∀ v, s.fetching v = false) ∧ s.handles = []

/-- One atomic operation of the module, or a change of the host file system.
An operation that ends in `BUG()` has no successor state. -/
inductive Step : State → State → Prop where
  /-- A task calls `get_host_dentry`. -/
  | producer (s : State) (v : Nat) (sig : Bool) :
      (get_host_dentry s v sig).res ≠ .bug → Step s (get_host_dentry s v sig).st
  /-- A task sleeping in `get_host_dentry` runs again. -/
  | producer_wake (s : State) (v : Nat) (sig : Bool) :
      (get_host_dentry_wake s v sig).res ≠ .bug → Step s (get_host_dentry_wake s v sig).st
  /-- Somebody opens the helper control file. -/
  | helper_open (s : State) : Step s (lazyfs_helper_open s).2
  /-- The helper reads its control file (which it has open). -/
  | helper_read (s : State) (count : Nat) (sig filp_ok : Bool) (fd : Int) :
      s.have_helper = true →
      (lazyfs_helper_read s count sig filp_ok fd).res ≠ .bug →
      Step s (lazyfs_helper_read s count sig filp_ok fd).st
  /-- An open request file is closed. -/
  | handle_release (s s1 : State) (v : Nat) :
      v ∈ s.handles → lazyfs_handle_release s v = some s1 → Step s s1
  /-- The helper control file is closed. -/
  | helper_release (s s1 : State) : lazyfs_helper_release s = some s1 → Step s s1
  /-- The host file system changes (the helper, or anyone, creates or removes
  host entries). -/
  | host_change (s : State) (f : Nat → DentryPtr) : Step s { s with lookup_hash := f }

/-- States reachable from a freshly mounted file system. -/
inductive Reachable : State → Prop where
  | init (s : State) : Init s → Reachable s
  | step (s s1 : State) : Reachable s → Step s s1 → Reachable s1

/-- The states after `vs` are requested, one after the other, by producers
that get no signal. -/
def producers (s : State) (vs : List Nat) : State :=
  vs.foldl (fun st v => (get_host_dentry st v false).st) s

/-- The dentries handed to the helper by successive reads of the control file;
each read comes with its `count`, `filp_ok` and `fd`. -/
def helper_reads : State → List (Nat × Bool × Int) → List (Option Nat)
  | _, [] => []
  | s, (count, filp_ok, fd) :: rest =>
    let r := lazyfs_helper_read s count false filp_ok fd
    r.sent :: helper_reads r.st rest

/-- A small mounted system for examples: dentry 0 is the root directory (with
its host dentry), dentries 1, 2, ... are directories below it whose host
entries do not exist yet. -/
def example_state : State where
  have_helper := false
  to_helper := []
  fetching := fun _ => false
  host_dentry := fun v => if v = 0 then some ⟨0, some (S_IFDIR ||| 0o755)⟩ else none
  handles := []
  d_parent := fun _ => 0
  i_mode := fun _ => S_IFDIR ||| 0o555
  lookup_hash := fun v => .ok ⟨v, none⟩

/-! ## The helper's request parser (`zero-install.c`, `read_from_helper`) -/

/-- The C library's `isspace` in the C locale. -/
def isspace (c : Nat) : Bool := c == 32 || (9 ≤ c && c ≤ 13)

/-- The C library's `isdigit`. -/
def isdigit (c : Nat) : Bool := 48 ≤ c && c ≤ 57

/-- The digit loop of `strtol` in base 10: the value read so far, then the
value and the rest of the string after the last digit. -/
def strtol_digits : List Nat → Nat → Nat × List Nat
  | [], acc => (acc, [])
  | c :: rest, acc =>
    if isdigit c then strtol_digits rest (acc * 10 + (c - 48)) else (acc, c :: rest)

/-- The C library's `strtol(s, &end, 10)` (without the clamp to `LONG_MAX`):
the value and `end`. When no digits are found the value is 0 and `end` is `s`. -/
def strtol (s : List Nat) : Int × List Nat :=
  let s1 := s.dropWhile isspace
  let neg : Bool := s1.head? == some 45
  let s2 := if s1.head? == some 45 || s1.head? == some 43 then s1.tail else s1
  match s2 with
  | c :: _ =>
    if isdigit c then
      let r := strtol_digits s2 0
      (if neg then -(r.1 : Int) else (r.1 : Int), r.2)
    else (0, s)
  | [] => (0, s)

/-- The test `strncmp(a, b, n) == 0`; a string that ends before it is decided
counts as different. -/
def strncmp_eq : Nat → List Nat → List Nat → Bool
  | 0, _, _ => true
  | n + 1, a :: as, b :: bs =>
    if a != b then false else if a == 0 then true else strncmp_eq n as bs
  | _ + 1, _, _ => false

/-- The string " uid=" with its terminating NUL. -/
def UID_TAG : List Nat := [32, 117, 105, 100, 61, 0]

/-- The checks of `read_from_helper` on the `len` bytes it has read from the
control file (lines 378-396): the request file descriptor and the uid, or
`none` when the helper prints "Internal error: bad request FD" and exits. -/
def read_from_helper (buffer : List Nat) : Option (Int × Int) :=
  let len := buffer.length
  if len < 2 || buffer.getD (len - 1) 0 != 0 || buffer.getD 0 0 == 0 then none
  else
    let r := strtol buffer
    if !strncmp_eq 5 r.2 UID_TAG || r.2.getD 5 0 == 0 then none
    else
      let u := strtol (r.2.drop 5)
      if u.2.getD 0 0 != 0 then none
      else some (r.1, u.1)

/-! ## Manifest parser -/

/-- The fields of a virtual inode that `new_dentry` sets from its arguments. -/
structure Inode where
  i_mode : Nat
  i_size : Nat
  i_mtime : Nat
deriving DecidableEq

/-- A virtual dentry on its parent's `d_subdirs` list: its name, its inode
(`none` for a negative dentry, as `d_add(dentry, NULL)` in `lazyfs_lookup`
makes them) and whether it is unhashed. -/
structure Dentry where
  name : List Nat
  d_inode : Option Inode
  unhashed : Bool
deriving DecidableEq

/-- How the manifest parser ended. -/
inductive LResult where
  /-- The parser returned this value. -/
  | ret (e : Int)
  /-- The parser reached its `BUG()`. -/
  | bug
  /-- The parser read a byte outside the `size + 1` bytes of its buffer. -/
  | fault
  /-- The model ran out of fuel. -/
  | nofuel
deriving DecidableEq

/-- Result of the manifest parser: how it ended and the children of the
directory afterwards. -/
structure Parsed where
  res : LResult
  children : List Dentry
deriving DecidableEq

/-- The magic string "LazyFS\n" with its terminating NUL. -/
def LAZYFS_MAGIC : List Nat := [76, 97, 122, 121, 70, 83, 10, 0]

/-- The C library's `strlen` on the rest of a buffer: `none` when the buffer
ends before a NUL is found. -/
def strlen : List Nat → Option Nat
  | [] => none
  | c :: rest => if c = 0 then some 0 else (strlen rest).map (· + 1)

/-- Modelled from the spec: the kernel's `d_lookup` is not part of the
repository; sibling lookup returns the child of that name or absence, names
compared byte-exact. As in the kernel, the child may be positive or negative
and unhashed dentries are not found. -/
def d_lookup (children : List Dentry) (name : List Nat) : Option Dentry :=
  children.find? (fun d => !d.unhashed && d.name == name)

/-- Modelled from the spec: the kernel's `d_alloc` and `d_add` are not part of
the repository; the data model of the spec makes the children of a VN an
ordered-insertion set, so a new child goes to the end of the list. -/
def d_add (children : List Dentry) (d : Dentry) : List Dentry :=
  children ++ [d]

/-- The function `new_dentry` for a child of a directory with the given
children. `ok` tells whether its allocations (`new_inode`, `d_alloc`,
`kmalloc`) succeed; when they do not, the directory is as before. -/
def new_dentry (ok : Bool) (children : List Dentry) (leaf : List Nat) (mode : Nat)
    (size mtime : Nat) : List Dentry :=
  if ok then d_add children ⟨leaf, some ⟨mode ||| 0o444, size, mtime⟩, false⟩
  else children

/-- The `switch (listing[offset])` of `add_dentries_from_list`: the mode for a
kind byte 'f', 'x', 'd' or 'l', `none` for `default`. -/
def kind_mode (c : Nat) : Option Nat :=
  if c = 102 then some (0o444 ||| S_IFREG)
  else if c = 120 then some (0o444 ||| (S_IFREG ||| 0o111))
  else if c = 100 then some (0o444 ||| (S_IFDIR ||| 0o111))
  else if c = 108 then some (0o444 ||| S_IFLNK)
  else none

/-- The `while (offset < size)` loop of `add_dentries_from_list` and the code
after it. `alloc offset` tells whether the allocations of the `new_dentry`
call for the record at `offset` succeed. -/
def add_dentries_loop : Nat → (Nat → Bool) → List Nat → Nat → Nat → List Dentry → Parsed
  | 0, _, _, _, _, children => ⟨.nofuel, children⟩
  | fuel + 1, alloc, listing, size, offset, children =>
    if offset < size then
      match listing[offset]? with
      | none => ⟨.fault, children⟩
      | some c =>
        match kind_mode c with
        | none => ⟨.ret (- EIO), children⟩
        | some mode =>
          let offset1 := offset + 1
          match strlen (listing.drop offset1) with
          | none => ⟨.fault, children⟩
          | some len =>
            let name := (listing.drop offset1).take len
            let offset2 := offset1 + (len + 1)
            if offset2 = size + 1 then ⟨.ret (- EIO), children⟩
            else
              match d_lookup children name with
              | some _ => add_dentries_loop fuel alloc listing size offset2 children
              | none =>
                add_dentries_loop fuel alloc listing size offset2
                  (new_dentry (alloc offset) children name mode 0 0)
    else if offset ≠ size then ⟨.bug, children⟩
    else ⟨.ret 0, children⟩

/-- The function `add_dentries_from_list` on a directory with the given
children; `listing` is the buffer and `size` the size of the manifest. -/
def add_dentries_from_list (alloc : Nat → Bool) (children : List Dentry)
    (listing : List Nat) (size : Nat) : Parsed :=
  if size < 7 || !strncmp_eq 7 listing LAZYFS_MAGIC then ⟨.ret (- EIO), children⟩
  else add_dentries_loop size alloc listing size 7 children

/-- The call of `add_dentries_from_list` that `ensure_cached` makes for a
manifest with the bytes `blob` (lines 648-672): the buffer has one more byte
than the manifest, and that byte is NUL. -/
def parse_manifest (alloc : Nat → Bool) (children : List Dentry) (blob : List Nat) : Parsed :=
  add_dentries_from_list alloc children (blob ++ [0]) blob.length

/-- The manifest "LazyFS Dynamic\n" that `handle_toplevel_request` writes. -/
def DYNAMIC_MANIFEST : List Nat :=
  [76, 97, 122, 121, 70, 83, 32, 68, 121, 110, 97, 109, 105, 99, 10]

/-- The 7 bytes of the magic "LazyFS\n". -/
def MAGIC7 : List Nat := [76, 97, 122, 121, 70, 83, 10]

/-- The bytes of the records of a static manifest, as the spec describes
them: for each entry its kind byte, the bytes of its name and one NUL. -/
def records : List (Nat × List Nat) → List Nat
  | [] => []
  | e :: rest => (e.1 :: e.2 ++ [0]) ++ records rest

/-! ## Concrete states for examples -/

/-- The example system after a helper has opened the control file. -/
def example_bound : State := (lazyfs_helper_open example_state).2

/-- The example system with a helper, after producers asked for dentry 1 and
then for dentry 2. -/
def example_two_queued : State := producers example_bound [1, 2]

/-- The example system after the helper has then read one request, getting
file descriptor 3. -/
def example_in_flight : State := (lazyfs_helper_read example_two_queued 20 false true 3).st

/-- The state after further producers ask for the same dentry `v`, one per
element of `sigs`. -/
def coalesced (s : State) (v : Nat) (sigs : List Bool) : State :=
  sigs.foldl (fun st sig => (get_host_dentry st v sig).st) s

/-- The kinds of virtual node of the data model. -/
inductive VKind where
  | regular
  | executable
  | directory
  | symlink
deriving DecidableEq

/-- The kind that the grammar of the manifest gives to a kind byte: 'f' is a
regular file, 'x' an executable regular file, 'd' a directory, 'l' a symlink. -/
def kind_of_byte (c : Nat) : Option VKind :=
  if c = 102 then some .regular
  else if c = 120 then some .executable
  else if c = 100 then some .directory
  else if c = 108 then some .symlink
  else none

/-- The macro `S_ISLNK`. -/
def S_ISLNK (m : Nat) : Bool := (m &&& S_IFMT) == S_IFLNK

/-- The kind of virtual node that an inode mode stands for; a regular file is
executable when it has an execute bit. -/
def kind_of_mode (m : Nat) : Option VKind :=
  if S_ISDIR m then some .directory
  else if S_ISLNK m then some .symlink
  else if S_ISREG m then (if m &&& 0o111 != 0 then some .executable else some .regular)
  else none

/-- What a directory shows of one child: its name, its kind (`none` for a
negative dentry) and whether it is unhashed. -/
def child_view (d : Dentry) : List Nat × Option VKind × Bool :=
  (d.name, d.d_inode.bind (fun i => kind_of_mode i.i_mode), d.unhashed)

/-- What a manifest entry `(kind byte, name)` should show as a child. -/
def entry_view (e : Nat × List Nat) : List Nat × Option VKind × Bool :=
  (e.2, kind_of_byte e.1, false)

/-- The dentry that the parser creates for a manifest entry. -/
def entry_dentry (e : Nat × List Nat) : Dentry :=
  ⟨e.2, some ⟨(kind_mode e.1).getD 0 ||| 0o444, 0, 0⟩, false⟩

/-! ## `ensure_cached`, `lazyfs_lookup`, `lazyfs_readdir` -/

/-- The macro `LAZYFS_MAX_LISTING_SIZE`. -/
def LAZYFS_MAX_LISTING_SIZE : Nat := 100 * 1024

/-- Errno `ENODEV`. -/
def ENODEV : Int := 19

/-- A virtual directory as `ensure_cached` sees it: the mode of its inode, its
`d_subdirs` list and `info->list_dentry` (the identity of the host dentry of
the manifest last switched to, `none` for NULL). -/
structure VDir where
  i_mode : Nat
  children : List Dentry
  list_dentry : Option Nat
deriving DecidableEq

/-- What the rest of the system answers during one call of `ensure_cached`:
* `host` is the result of `get_host_dentry(dentry)`;
* `list` is the result of `lookup_hash(&sbi->dirlist_qname, host_dentry)`;
* `open_err` is 0, or the error of `dentry_open`;
* `blob` holds the bytes of the manifest file, its `i_size` is their number;
* `kmalloc_ok` tells whether `kmalloc(size + 1)` succeeds;
* `got` is what `kernel_read` returns when asked for the whole file;
* `alloc` tells which `new_dentry` calls of the parser succeed. -/
structure HostDir where
  host : DentryPtr
  list : DentryPtr
  open_err : Int
  blob : List Nat
  kmalloc_ok : Bool
  got : Int
  alloc : Nat → Bool

/-- Result of `ensure_cached`: how it ended and the directory afterwards. -/
structure Cached where
  res : LResult
  dir : VDir
deriving DecidableEq

/-- The function `ensure_cached`. -/
def ensure_cached (d : VDir) (h : HostDir) : Cached :=
  if !S_ISDIR d.i_mode then ⟨.bug, d⟩
  else
    match h.host with
    | .error e => ⟨.ret e, d⟩
    | .ok _ =>
      match h.list with
      | .error e => ⟨.ret e, d⟩
      | .ok list_dentry =>
        if !(match list_dentry.d_inode with
            | none => false
            | some m => S_ISREG m) then ⟨.ret (- EIO), d⟩
        else if some list_dentry.id = d.list_dentry then ⟨.ret 0, d⟩
        else
          let d1 : VDir := { d with list_dentry := some list_dentry.id }
          if h.open_err ≠ 0 then ⟨.ret h.open_err, d1⟩
          else
            let size := h.blob.length
            if size > LAZYFS_MAX_LISTING_SIZE then ⟨.ret (- E2BIG), d1⟩
            else if !h.kmalloc_ok then ⟨.ret (- ENOMEM), d1⟩
            else if 0 < size ∧ h.got ≠ (size : Int) then
              ⟨.ret (if h.got < 0 then h.got else - EIO), d1⟩
            else
              let r := add_dentries_from_list h.alloc d1.children (h.blob ++ [0]) size
              ⟨r.res, { d1 with children := r.children }⟩

/-- The function `lazyfs_dir_open`. -/
def lazyfs_dir_open (d : VDir) (h : HostDir) : Cached :=
  ensure_cached d h

/-- What `lazyfs_lookup` returns: the helper dentry, a dentry found in the
directory, NULL (the dentry passed in is used, and it is negative), or an
`ERR_PTR`. -/
inductive LookupPtr where
  | helper
  | found (d : Dentry)
  | null
  | error (e : Int)
deriving DecidableEq

/-- Result of `lazyfs_lookup`: the pointer returned and the directory
afterwards. -/
structure Looked where
  ptr : LookupPtr
  dir : VDir
deriving DecidableEq

/-- The name ".lazyfs-helper". -/
def HELPER_NAME : List Nat :=
  [46, 108, 97, 122, 121, 102, 115, 45, 104, 101, 108, 112, 101, 114]

/-- The function `lazyfs_lookup` for the name `name` in the directory `d`;
`is_root` tells whether `d` is the root of the mount. The dentry passed in by
the caller is already on `d_subdirs` when `d_add(dentry, NULL)` hashes it, so
it shows up as a negative child. -/
def lazyfs_lookup (is_root : Bool) (d : VDir) (name : List Nat) (h : HostDir) : Looked :=
  if is_root && name == HELPER_NAME then ⟨.helper, d⟩
  else
    let d1 := (ensure_cached d h).dir
    match d_lookup d1.children name with
    | some new => ⟨.found new, d1⟩
    | none => ⟨.null, { d1 with children := d_add d1.children ⟨name, none, false⟩ }⟩

/-- The callback `filldir` of a reader whose buffer has room for `room` more
entries: the value returned (non-zero when the entry is refused) and the room
left. -/
def filldir (room : Nat) : Int × Nat :=
  if room = 0 then (- EINVAL, 0) else (0, room - 1)

/-- Result of `lazyfs_readdir`: the value returned, `file->f_pos` afterwards
and the names that `filldir` accepted, in order. -/
structure Readdir where
  ret : Int
  f_pos : Nat
  accepted : List (List Nat)
deriving DecidableEq

/-- The `while (next != head)` loop of `lazyfs_readdir` and the code after
it. -/
def readdir_children : List Dentry → Nat → Nat → Nat → Int → List (List Nat) → Readdir
  | [], _, f_pos, _, count, acc => ⟨if count ≠ 0 then count else 0, f_pos, acc⟩
  | child :: rest, skip, f_pos, room, count, acc =>
    if child.unhashed || child.d_inode.isNone then
      readdir_children rest skip f_pos room count acc
    else if skip ≠ 0 then readdir_children rest (skip - 1) f_pos room count acc
    else
      let f_pos1 := f_pos + 1
      let r := filldir room
      if r.1 ≠ 0 then ⟨if count ≠ 0 then count else r.1, f_pos1, acc⟩
      else readdir_children rest skip f_pos1 r.2 (count + 1) (acc ++ [child.name])

/-- The function `lazyfs_readdir` on a directory with the given children, for
a file at position `f_pos` and a reader with room for `room` entries. -/
def lazyfs_readdir (children : List Dentry) (f_pos : Nat) (room : Nat) : Readdir :=
  let skip := f_pos
  -- "."
  if skip ≠ 0 then
    let skip := skip - 1
    -- ".."
    if skip ≠ 0 then readdir_children children (skip - 1) f_pos room 0 []
    else
      let r := filldir room
      if r.1 ≠ 0 then ⟨r.1, f_pos, []⟩
      else readdir_children children skip (f_pos + 1) r.2 1 [[46, 46]]
  else
    let r := filldir room
    if r.1 ≠ 0 then ⟨r.1, f_pos, []⟩
    else
      let f_pos1 := f_pos + 1
      -- ".."
      let r2 := filldir r.2
      if r2.1 ≠ 0 then ⟨1, f_pos1, [[46]]⟩
      else readdir_children children skip (f_pos1 + 1) r2.2 2 [[46], [46, 46]]

/-- Successive calls of `lazyfs_readdir` on one open file, one per element of
`rooms` (the room of the reader's buffer in that call): the names accepted
over all calls, in order. -/
def readdir_calls (children : List Dentry) : Nat → List Nat → List (List Nat)
  | _, [] => []
  | f_pos, room :: rest =>
    let r := lazyfs_readdir children f_pos room
    r.accepted ++ readdir_calls children r.f_pos rest

/-- The names that a complete listing of the directory has: ".", "..", then
the positive hashed children in list order. -/
def full_listing (children : List Dentry) : List (List Nat) :=
  [[46], [46, 46]] ++
    (children.filter (fun d => !d.unhashed && d.d_inode.isSome)).map (fun d => d.name)

/-! ## `lazyfs_file_mmap` -/

/-- The host file paired with an open virtual file, as `lazyfs_file_mmap`
uses it: whether it has an `mmap` operation, `host_inode->i_mapping` before
the host's `mmap` runs, what that `mmap` returns, and `host_inode->i_mapping`
after it has run. Mappings are named by numbers. -/
structure HostFile where
  has_mmap : Bool
  i_mapping : Nat
  mmap_err : Int
  i_mapping_after : Nat
deriving DecidableEq

/-- Result of `lazyfs_file_mmap`: how it ended, whether the host's `mmap` was
called, and `inode->i_mapping` afterwards (`none` is `&inode->i_data`, the
inode's own mapping). -/
structure Mapped where
  res : LResult
  called_host : Bool
  i_mapping : Option Nat
deriving DecidableEq

/-- The function `lazyfs_file_mmap` for a virtual inode with the given
`i_mapping`; `host_file` is `file->private_data`. -/
def lazyfs_file_mmap (i_mapping : Option Nat) (host_file : Option HostFile) : Mapped :=
  match host_file with
  | none => ⟨.bug, false, i_mapping⟩
  | some hf =>
    if !hf.has_mmap then ⟨.ret (- ENODEV), false, i_mapping⟩
    else if i_mapping ≠ none ∧ i_mapping ≠ some hf.i_mapping then
      ⟨.ret (- EBUSY), false, i_mapping⟩
    else if hf.mmap_err ≠ 0 then ⟨.ret hf.mmap_err, true, i_mapping⟩
    else if i_mapping = none then ⟨.ret 0, true, some hf.i_mapping_after⟩
    else ⟨.ret 0, true, i_mapping⟩

/-- The mapping of a virtual inode after a sequence of `lazyfs_file_mmap`
calls, one per host file of the list. -/
def mmap_calls (i_mapping : Option Nat) (files : List HostFile) : Option Nat :=
  files.foldl (fun m hf => (lazyfs_file_mmap m (some hf)).i_mapping) i_mapping

/-! ## URI helpers (`support.c`) -/

/-- Write `data` into a buffer at offset `off`; `none` when that would write
outside the buffer. -/
def write_at (buf : List Nat) (off : Nat) (data : List Nat) : Option (List Nat) :=
  if off + data.length ≤ buf.length then
    some (buf.take off ++ data ++ buf.drop (off + data.length))
  else none

/-- The C library's `memmove(buf + dst, buf + src, n)` inside one buffer;
`none` when it would read or write outside the buffer. -/
def memmove (buf : List Nat) (dst src n : Nat) : Option (List Nat) :=
  if src + n ≤ buf.length then write_at buf dst ((buf.drop src).take n) else none

/-- The C library's `memcpy(buf + dst, src, n)` from another buffer; `none`
when it would read or write outside a buffer. -/
def memcpy (buf : List Nat) (dst : Nat) (src : List Nat) (n : Nat) : Option (List Nat) :=
  if n ≤ src.length then write_at buf dst (src.take n) else none

/-- The string "ftp://" with its terminating NUL. -/
def FTP_SCHEME : List Nat := [102, 116, 112, 58, 47, 47, 0]

/-- The string "http://" with its terminating NUL. -/
def HTTP_SCHEME : List Nat := [104, 116, 116, 112, 58, 47, 47, 0]

/-- The string "https://" with its terminating NUL. -/
def HTTPS_SCHEME : List Nat := [104, 116, 116, 112, 115, 58, 47, 47, 0]

/-- The function `uri_ensure_absolute`: `uri` is the memory of the buffer that
holds the uri, `base` the memory that holds the base; the value returned and
the buffer afterwards, or `none` when a byte outside a buffer is accessed. -/
def uri_ensure_absolute (uri : List Nat) (len : Int) (base : List Nat) :
    Option (Int × List Nat) :=
  if strncmp_eq 6 uri FTP_SCHEME || strncmp_eq 7 uri HTTP_SCHEME ||
      strncmp_eq 8 uri HTTPS_SCHEME then some (1, uri)
  else
    match strlen uri, strlen base with
    | some uri_len, some base_len =>
      if (uri_len : Int) + (base_len : Int) + 2 > len then some (0, uri)
      else
        match memmove uri (base_len + 1) 0 (uri_len + 1) with
        | none => none
        | some b1 =>
          match write_at b1 base_len [47] with
          | none => none
          | some b2 =>
            match memcpy b2 0 base base_len with
            | none => none
            | some b3 => some (1, b3)
    | _, _ => none

/-- The results of the run in which two calls of `get_host_dentry` for the
directory dentry 1 interleave: both find the host entry missing, the first
links the dentry on `to_helper`, both sleep; the helper reads the request
(file descriptor 3), the host directory appears, the helper closes the request
file; then the first producer runs again, then the second. The results are
those of: the first runs of both producers, the dentry handed to the helper,
and the runs of both producers after the wake-up. -/
def two_producers_run : Option (PResult × PResult × Option Nat × PResult × PResult) :=
  let p1 := get_host_dentry example_bound 1 false
  let p2 := get_host_dentry p1.st 1 false
  let r := lazyfs_helper_read p2.st 20 false true 3
  let s4 : State := { r.st with lookup_hash := fun v => .ok ⟨v, some (S_IFDIR ||| 0o755)⟩ }
  match lazyfs_handle_release s4 1 with
  | none => none
  | some s5 =>
    let w1 := get_host_dentry_wake s5 1 false
    let w2 := get_host_dentry_wake w1.st 1 false
    some (p1.res, p2.res, r.sent, w1.res, w2.res)

/-! ## Concrete directories for examples -/

/-- A virtual directory that has not been populated yet. -/
def example_dir : VDir := ⟨S_IFDIR ||| 0o555, [], none⟩

/-- A host directory in which everything succeeds and whose manifest, the host
dentry number `id`, has the bytes `blob`. -/
def host_with_manifest (id : Nat) (blob : List Nat) : HostDir where
  host := .ok ⟨1, some (S_IFDIR ||| 0o755)⟩
  list := .ok ⟨id, some (S_IFREG ||| 0o644)⟩
  open_err := 0
  blob := blob
  kmalloc_ok := true
  got := blob.length
  alloc := fun _ => true

/-- A host directory that has no manifest file: the lookup of "..." gives a
negative dentry. -/
def host_without_manifest : HostDir where
  host := .ok ⟨1, some (S_IFDIR ||| 0o755)⟩
  list := .ok ⟨7, none⟩
  open_err := 0
  blob := []
  kmalloc_ok := true
  got := 0
  alloc := fun _ => true

/-- The host directory whose manifest lists the regular file "a" only. -/
def host_lists_a : HostDir := host_with_manifest 6 (MAGIC7 ++ records [(102, [97])])

/-- The host directory after its manifest was replaced by one that lists the
regular files "a" and "c". -/
def host_lists_a_c : HostDir :=
  host_with_manifest 7 (MAGIC7 ++ records [(102, [97]), (102, [99])])

/-- The example directory after "c" was looked up in it while the manifest
listed "a" only. -/
def dir_after_lookup_c : VDir := (lazyfs_lookup false example_dir [99] host_lists_a).dir

/-- That directory after `ensure_cached` has then read the new manifest. -/
def dir_after_swap : VDir := (ensure_cached dir_after_lookup_c host_lists_a_c).dir

/-- A host directory whose manifest has an invalid kind byte: "LazyFS\n" "q"
NUL. -/
def host_bad_manifest : HostDir := host_with_manifest 7 (MAGIC7 ++ [113, 0])

/-- A host directory with a good manifest for which `kmalloc` fails. -/
def host_no_memory : HostDir := { host_lists_a with kmalloc_ok := false }

/-- A host directory with a good manifest of which `kernel_read` reads 3
bytes only. -/
def host_short_read : HostDir := { host_lists_a with got := 3 }

/-- Two positive children, the regular files "a" and "b". -/
def example_children : List Dentry :=
  [⟨[97], some ⟨S_IFREG ||| 0o444, 0, 0⟩, false⟩, ⟨[98], some ⟨S_IFREG ||| 0o444, 0, 0⟩, false⟩]

/-! ## Strings for the URI helpers -/

/-- The bytes of "leaf.html". -/
def LEAF_HTML : List Nat := [108, 101, 97, 102, 46, 104, 116, 109, 108]

/-- The bytes of "http://foo.org/dir". -/
def FOO_DIR : List Nat :=
  [104, 116, 116, 112, 58, 47, 47, 102, 111, 111, 46, 111, 114, 103, 47, 100, 105, 114]

/-- The bytes of "http://foo.org/dir/leaf.html". -/
def FOO_DIR_LEAF : List Nat :=
  [104, 116, 116, 112, 58, 47, 47, 102, 111, 111, 46, 111, 114, 103, 47, 100, 105, 114,
    47, 108, 101, 97, 102, 46, 104, 116, 109, 108]

/-- The part of the state that the fetch lock protects, and the open request
files, are the same in both states. -/
def SameQ (s s1 : State) : Prop :=
  s1.to_helper = s.to_helper ∧ s1.fetching = s.fetching ∧ s1.handles = s.handles ∧
    s1.have_helper = s.have_helper

/-- The state `s1` is `s` with dentry `v` newly linked on `to_helper`. -/
def Enqueued (v : Nat) (s s1 : State) : Prop :=
  s.fetching v = false ∧ s.have_helper = true ∧ s1.to_helper = v :: s.to_helper ∧
    s1.fetching = Function.update s.fetching v true ∧ s1.handles = s.handles ∧
    s1.have_helper = s.have_helper

/-- Invariant of the fetch protocol: `fetching` marks exactly the dentries
that are queued or have an open request file, and no dentry is queued twice,
has two request files, or is both queued and in flight. -/
def Inv (s : State) : Prop :=
  (∀ v, s.fetching v = true ↔ (v ∈ s.to_helper ∨ v ∈ s.handles)) ∧
    (s.to_helper ++ s.handles).Nodup

/-! ## Lemmas on the producer -/

theorem sameQ_refl (s : State) : SameQ s s := ⟨rfl, rfl, rfl, rfl⟩

theorem set_host_dentry_sameQ {s s1 : State} {v : Nat} {hd : HostDentry}
    (h : set_host_dentry s v hd = some s1) : SameQ s s1 := by
  unfold set_host_dentry at h
  split at h
  · cases h
  · split at h
    · cases h
    · cases h
      exact ⟨rfl, rfl, rfl, rfl⟩

theorem tail_sameQ (s : State) (v : Nat) (hd : HostDentry) :
    SameQ s (get_host_dentry_tail s v hd).st := by
  unfold get_host_dentry_tail
  split
  · exact sameQ_refl s
  · split
    · split
      · exact sameQ_refl s
      · split
        · exact sameQ_refl s
        · next h => exact set_host_dentry_sameQ h
    · split
      · split <;> exact sameQ_refl s
      · exact sameQ_refl s

theorem pre_st (l : List Event) (o : Out) : (o.pre l).st = o.st := rfl

theorem loop_false_sameQ (fuel : Nat) (s : State) (v : Nat) (sig : Bool) :
    SameQ s (get_host_dentry_loop fuel false s v sig).st := by
  cases fuel with
  | zero => exact sameQ_refl s
  | succ n =>
    unfold get_host_dentry_loop
    split
    · exact tail_sameQ s v _
    · split
      · exact sameQ_refl s
      · split
        · rw [pre_st]; exact tail_sameQ s v _
        · simp only [Bool.not_false, if_true]
          exact sameQ_refl s

theorem wait_loop_st (k : State → Out) (s : State) (v : Nat) (sig : Bool) :
    (wait_loop k s v sig).st = s ∨
      (s.fetching v = false ∧ (wait_loop k s v sig).st = (k s).st) := by
  unfold wait_loop
  split
  · next h => exact Or.inr ⟨h, rfl⟩
  · split <;> exact Or.inl rfl

theorem wait_loop_fetching (k : State → Out) (s : State) (v : Nat) (sig : Bool)
    (h : s.fetching v = true) : (wait_loop k s v sig).st = s := by
  unfold wait_loop
  rw [h]
  simp only [Bool.true_eq_false, if_false]
  split <;> rfl

theorem loop_true_st (fuel : Nat) (s : State) (v : Nat) (sig : Bool) :
    SameQ s (get_host_dentry_loop fuel true s v sig).st ∨
      Enqueued v s (get_host_dentry_loop fuel true s v sig).st := by
  cases fuel with
  | zero => exact Or.inl (sameQ_refl s)
  | succ n =>
    unfold get_host_dentry_loop
    split
    · exact Or.inl (tail_sameQ s v _)
    · split
      · exact Or.inl (sameQ_refl s)
      · split
        · rw [pre_st]; exact Or.inl (tail_sameQ s v _)
        · simp only [Bool.not_true, Bool.false_eq_true, if_false]
          by_cases hh : s.have_helper = true
          · by_cases hf : s.fetching v = true
            · simp only [hh, hf, Bool.not_true, Bool.false_and, Bool.false_eq_true, if_false,
                pre_st]
              rw [wait_loop_fetching _ _ _ _ hf]
              exact Or.inl (sameQ_refl s)
            · simp only [Bool.not_eq_true] at hf
              simp only [hh, hf, Bool.not_false, Bool.and_self, if_true, Bool.not_true,
                Bool.false_eq_true, if_false, pre_st]
              rw [wait_loop_fetching _ _ _ _ (by simp)]
              exact Or.inr ⟨hf, hh, rfl, rfl, rfl, hh.symm ▸ rfl⟩
          · simp only [Bool.not_eq_true] at hh
            simp [hh, SameQ]

theorem get_host_dentry_st (s : State) (v : Nat) (sig : Bool) :
    SameQ s (get_host_dentry s v sig).st ∨ Enqueued v s (get_host_dentry s v sig).st := by
  unfold get_host_dentry
  split
  · exact Or.inl (sameQ_refl s)
  · split
    · exact Or.inl (sameQ_refl s)
    · exact loop_true_st 2 s v sig

theorem get_host_dentry_wake_sameQ (s : State) (v : Nat) (sig : Bool) :
    SameQ s (get_host_dentry_wake s v sig).st := by
  unfold get_host_dentry_wake
  rcases wait_loop_st (fun s2 => get_host_dentry_loop 1 false s2 v sig) s v sig
    with h | ⟨_, h⟩
  · rw [h]; exact sameQ_refl s
  · rw [h]; exact loop_false_sameQ 1 s v sig

/-! ## The invariant of the fetch protocol -/

theorem inv_of_sameQ {s s1 : State} (h : SameQ s s1) (hi : Inv s) : Inv s1 := by
  obtain ⟨h1, h2, h3, _⟩ := h
  unfold Inv
  rw [h1, h2, h3]
  exact hi

theorem inv_of_enqueued {s s1 : State} {v : Nat} (h : Enqueued v s s1) (hi : Inv s) :
    Inv s1 := by
  obtain ⟨hf, _, h1, h2, h3, _⟩ := h
  obtain ⟨hiff, hnd⟩ := hi
  have hv : ¬ (v ∈ s.to_helper ∨ v ∈ s.handles) := by
    intro hm
    have := (hiff v).mpr hm
    rw [hf] at this
    cases this
  unfold Inv
  rw [h1, h2, h3]
  constructor
  · intro u
    by_cases hu : u = v
    · subst hu
      simp
    · rw [Function.update_noteq hu, hiff u]
      simp [hu]
  · rw [List.cons_append, List.nodup_cons]
    exact ⟨by simpa [List.mem_append] using hv, hnd⟩

theorem inv_of_init {s : State} (h : Init s) : Inv s := by
  obtain ⟨_, h2, h3, h4⟩ := h
  unfold Inv
  rw [h2, h4]
  simp [h3]

theorem discard_eq (q : List Nat) :
    ∀ (f g : Nat → Bool), discard q f = some g →
      ∀ u, g u = if u ∈ q then false else f u := by
  induction q with
  | nil =>
    intro f g h u
    simp only [discard, Option.some.injEq] at h
    simp [h]
  | cons a rest ih =>
    intro f g h u
    unfold discard at h
    split at h
    · cases h
    · have := ih _ _ h u
      rw [this]
      by_cases hu : u ∈ rest
      · simp [hu]
      · by_cases hua : u = a
        · subst hua
          simp [hu]
        · simp [hu, hua, Function.update_noteq hua]

theorem discard_some (q : List Nat) :
    ∀ (f : Nat → Bool), q.Nodup → (∀ u ∈ q, f u = true) → ∃ g, discard q f = some g := by
  induction q with
  | nil => intro f _ _; exact ⟨f, rfl⟩
  | cons a rest ih =>
    intro f hnd hall
    rw [List.nodup_cons] at hnd
    unfold discard
    have ha : f a = true := hall a (List.mem_cons_self a rest)
    simp only [ha, bne_self_eq_false, Bool.false_eq_true, if_false]
    apply ih _ hnd.2
    intro u hu
    have hua : u ≠ a := fun e => hnd.1 (e ▸ hu)
    rw [Function.update_noteq hua]
    exact hall u (List.mem_cons_of_mem a hu)

theorem inv_of_helper_release {s s1 : State} (h : lazyfs_helper_release s = some s1)
    (hi : Inv s) : Inv s1 := by
  obtain ⟨hiff, hnd⟩ := hi
  unfold lazyfs_helper_release at h
  split at h
  · cases h
  · next g hg =>
    split at h
    · cases h
    · cases h
      have hg2 := discard_eq _ _ _ hg
      unfold Inv
      simp only [List.nil_append, List.not_mem_nil, false_or]
      refine ⟨fun u => ?_, (List.nodup_append.mp hnd).2.1⟩
      rw [hg2 u]
      by_cases hu : u ∈ s.to_helper
      · simp only [hu, if_true, Bool.false_eq_true, false_iff]
        exact fun hh => (List.nodup_append.mp hnd).2.2 hu hh
      · simp only [hu, if_false, hiff u, false_or]

theorem inv_of_handle_release {s s1 : State} {v : Nat} (hv : v ∈ s.handles)
    (h : lazyfs_handle_release s v = some s1) (hi : Inv s) : Inv s1 := by
  obtain ⟨hiff, hnd⟩ := hi
  unfold lazyfs_handle_release at h
  split at h
  · cases h
  · cases h
    have hnd2 := List.nodup_append.mp hnd
    unfold Inv
    simp only
    constructor
    · intro u
      by_cases hu : u = v
      · subst hu
        simp only [Function.update_same, Bool.false_eq_true, false_iff, not_or]
        exact ⟨fun hq => hnd2.2.2 hq hv, fun hm => (List.Nodup.mem_erase_iff hnd2.2.1).mp hm |>.1 rfl⟩
      · rw [Function.update_noteq hu, hiff u, List.mem_erase_of_ne hu]
    · exact List.nodup_append.mpr
        ⟨hnd2.1, hnd2.2.1.erase v, fun a ha hb => hnd2.2.2 ha (List.mem_of_mem_erase hb)⟩

theorem inv_of_helper_read (s : State) (count : Nat) (sig filp_ok : Bool) (fd : Int)
    (hi : Inv s) : Inv (lazyfs_helper_read s count sig filp_ok fd).st := by
  obtain ⟨hiff, hnd⟩ := hi
  unfold lazyfs_helper_read
  split
  · exact ⟨hiff, hnd⟩
  · split
    · next info rest hq =>
      rw [hq] at hiff hnd
      rw [List.cons_append, List.nodup_cons] at hnd
      have hnot : info ∉ rest ∧ info ∉ s.handles := by
        simpa [List.mem_append, not_or] using hnd.1
      unfold send_to_helper
      by_cases hok : filp_ok = true
      · by_cases hfd : fd < 0
        · have hneg : (fd < 0) := hfd
          simp only [hok, Bool.not_true, Bool.false_eq_true, if_false, hfd, if_true]
          have hft : s.fetching info = true := (hiff info).mpr (Or.inl (List.mem_cons_self _ _))
          simp only [hft, bne_self_eq_false, Bool.false_eq_true, if_false]
          refine ⟨fun u => ?_, hnd.2⟩
          by_cases hu : u = info
          · subst hu
            simp [hnot.1, hnot.2]
          · simp only [Function.update_noteq hu, hiff u, List.mem_cons, hu, false_or]
        · simp only [hok, Bool.not_true, Bool.false_eq_true, if_false, hfd]
          have hpos : ¬ (((snprintf_d fd.toNat).length : Int) + 1 < 0) := by omega
          simp only [hpos, if_false]
          refine ⟨fun u => ?_, ?_⟩
          · simp only [hiff u, List.mem_cons]
            tauto
          · exact (List.perm_middle.nodup_iff).mpr (List.nodup_cons.mpr hnd)
      · simp only [Bool.not_eq_true] at hok
        have hneg : -ENOMEM < 0 := by decide
        simp only [hok, Bool.not_false, if_true, hneg]
        have hft : s.fetching info = true := (hiff info).mpr (Or.inl (List.mem_cons_self _ _))
        simp only [hft, bne_self_eq_false, Bool.false_eq_true, if_false]
        refine ⟨fun u => ?_, hnd.2⟩
        by_cases hu : u = info
        · subst hu
          simp [hnot.1, hnot.2]
        · simp only [Function.update_noteq hu, hiff u, List.mem_cons, hu, false_or]
    · split <;> exact ⟨hiff, hnd⟩

theorem inv_of_helper_open (s : State) (hi : Inv s) : Inv (lazyfs_helper_open s).2 := by
  unfold lazyfs_helper_open
  split
  · exact hi
  · exact hi

theorem inv_of_step {s s1 : State} (h : Step s s1) (hi : Inv s) : Inv s1 := by
  cases h with
  | producer v sig _ =>
    rcases get_host_dentry_st s v sig with h | h
    · exact inv_of_sameQ h hi
    · exact inv_of_enqueued h hi
  | producer_wake v sig _ => exact inv_of_sameQ (get_host_dentry_wake_sameQ s v sig) hi
  | helper_open => exact inv_of_helper_open s hi
  | helper_read count sig filp_ok fd _ _ => exact inv_of_helper_read s count sig filp_ok fd hi
  | handle_release _ v hv h => exact inv_of_handle_release hv h hi
  | helper_release _ h => exact inv_of_helper_release h hi
  | host_change f => exact hi

theorem inv_of_reachable {s : State} (h : Reachable s) : Inv s := by
  induction h with
  | init s h => exact inv_of_init h
  | step s s1 _ hs ih => exact inv_of_step hs ih

/-! ## Reachability of the example states -/

theorem example_state_init : Init example_state := ⟨rfl, rfl, fun _ => rfl, rfl⟩

theorem example_bound_reachable : Reachable example_bound :=
  Reachable.step _ _ (Reachable.init _ example_state_init) (Step.helper_open _)

theorem example_two_queued_reachable : Reachable example_two_queued :=
  Reachable.step _ _
    (Reachable.step _ _ example_bound_reachable (Step.producer _ 1 false (by decide)))
    (Step.producer _ 2 false (by decide))

theorem example_in_flight_reachable : Reachable example_in_flight :=
  Reachable.step _ _ example_two_queued_reachable
    (Step.helper_read _ 20 false true 3 (by decide) (by decide))

/-! ## C5: `fetching` marks the queued and the in-flight dentries -/

/-- C5: in every state reachable through producer calls, reads and closes of
the helper control file and closes of request files, a dentry has `fetching`
set if and only if it is linked on `to_helper` or has an open request file. -/
theorem C5_fetching_iff_queued_or_in_flight (s : State) (h : Reachable s) (v : Nat) :
    s.fetching v = true ↔ (v ∈ s.to_helper ∨ v ∈ s.handles) :=
  (inv_of_reachable h).1 v

/-- C5, at a concrete state: dentry 2 is in flight, dentry 1 is queued. -/
theorem C5_witness :
    Reachable example_in_flight ∧
      (example_in_flight.fetching 2 = true ↔
        (2 ∈ example_in_flight.to_helper ∨ 2 ∈ example_in_flight.handles)) :=
  ⟨example_in_flight_reachable,
    C5_fetching_iff_queued_or_in_flight example_in_flight example_in_flight_reachable 2⟩

/-! ## C2: one queue membership and one request per dentry -/

theorem coalesced_sameQ (v : Nat) (sigs : List Bool) :
    ∀ s : State, s.fetching v = true → SameQ s (coalesced s v sigs) := by
  induction sigs with
  | nil => intro s _; exact sameQ_refl s
  | cons sig rest ih =>
    intro s hf
    have h1 : SameQ s (get_host_dentry s v sig).st := by
      rcases get_host_dentry_st s v sig with h | h
      · exact h
      · rw [h.1] at hf; cases hf
    have hf1 : (get_host_dentry s v sig).st.fetching v = true := by rw [h1.2.1]; exact hf
    have h2 := ih _ hf1
    show SameQ s (coalesced (get_host_dentry s v sig).st v rest)
    exact ⟨h2.1.trans h1.1, h2.2.1.trans h1.2.1, h2.2.2.1.trans h1.2.2.1,
      h2.2.2.2.trans h1.2.2.2⟩

/-- C2: in every reachable state a dentry is linked on `to_helper` at most
once and has at most one open request file (and not both); a producer that
finds `fetching` set leaves the queue as it is, so after any number of further
producers for the same dentry there is still exactly one request for it,
queued or handed to the helper. -/
theorem C2_one_request_per_dentry (s : State) (h : Reachable s) (v : Nat) :
    s.to_helper.count v + s.handles.count v ≤ 1 ∧
      (s.fetching v = true →
        (∀ sig, (get_host_dentry s v sig).st.to_helper = s.to_helper) ∧
        ∀ sigs, (coalesced s v sigs).to_helper = s.to_helper ∧
          (coalesced s v sigs).handles = s.handles ∧
          (coalesced s v sigs).to_helper.count v + (coalesced s v sigs).handles.count v = 1) := by
  obtain ⟨hiff, hnd⟩ := inv_of_reachable h
  have hle : s.to_helper.count v + s.handles.count v ≤ 1 := by
    rw [← List.count_append]
    exact List.nodup_iff_count_le_one.mp hnd v
  refine ⟨hle, fun hf => ⟨fun sig => ?_, fun sigs => ?_⟩⟩
  · have := coalesced_sameQ v [sig] s hf
    exact this.1
  · have hs := coalesced_sameQ v sigs s hf
    refine ⟨hs.1, hs.2.2.1, ?_⟩
    rw [hs.1, hs.2.2.1]
    have hmem : v ∈ s.to_helper ++ s.handles := List.mem_append.mpr ((hiff v).mp hf)
    have hpos : 0 < (s.to_helper ++ s.handles).count v := List.count_pos_iff.mpr hmem
    rw [List.count_append] at hpos
    omega

/-- C2, at a concrete state: dentry 1 is queued, dentry 2 is queued. -/
theorem C2_witness :
    Reachable example_two_queued ∧
      (example_two_queued.to_helper.count 1 + example_two_queued.handles.count 1 ≤ 1 ∧
        (example_two_queued.fetching 1 = true →
          (∀ sig, (get_host_dentry example_two_queued 1 sig).st.to_helper
              = example_two_queued.to_helper) ∧
          ∀ sigs, (coalesced example_two_queued 1 sigs).to_helper
              = example_two_queued.to_helper ∧
            (coalesced example_two_queued 1 sigs).handles = example_two_queued.handles ∧
            (coalesced example_two_queued 1 sigs).to_helper.count 1
              + (coalesced example_two_queued 1 sigs).handles.count 1 = 1)) :=
  ⟨example_two_queued_reachable,
    C2_one_request_per_dentry example_two_queued example_two_queued_reachable 1⟩

/-! ## C7: closing the helper control file -/

/-- C7: in every reachable state in which a helper is bound,
`lazyfs_helper_release` completes; afterwards no helper is bound, `to_helper`
is empty, every dentry that was on `to_helper` has `fetching` clear, and the
`fetching` flag of every other dentry (those with an open request file
included) is as before. -/
theorem C7_helper_release_drains (s : State) (h : Reachable s)
    (hh : s.have_helper = true) :
    ∃ s1, lazyfs_helper_release s = some s1 ∧ s1.have_helper = false ∧
      s1.to_helper = [] ∧ (∀ v ∈ s.to_helper, s1.fetching v = false) ∧
      (∀ v, v ∉ s.to_helper → s1.fetching v = s.fetching v) ∧
      s1.handles = s.handles := by
  obtain ⟨hiff, hnd⟩ := inv_of_reachable h
  obtain ⟨g, hg⟩ := discard_some s.to_helper s.fetching (List.nodup_append.mp hnd).1
    (fun u hu => (hiff u).mpr (Or.inl hu))
  have hg2 := discard_eq _ _ _ hg
  refine ⟨{ s with to_helper := [], fetching := g, have_helper := false }, ?_, rfl, rfl,
    ?_, ?_, rfl⟩
  · unfold lazyfs_helper_release
    rw [hg]
    simp [hh]
  · intro v hv
    show g v = false
    rw [hg2 v]; simp [hv]
  · intro v hv
    show g v = s.fetching v
    rw [hg2 v]; simp [hv]

/-- C7, at a concrete state: a helper is bound, dentry 1 is queued and dentry
2 has an open request file. -/
theorem C7_witness :
    (Reachable example_in_flight ∧ example_in_flight.have_helper = true) ∧
      ∃ s1, lazyfs_helper_release example_in_flight = some s1 ∧ s1.have_helper = false ∧
        s1.to_helper = [] ∧ (∀ v ∈ example_in_flight.to_helper, s1.fetching v = false) ∧
        (∀ v, v ∉ example_in_flight.to_helper → s1.fetching v = example_in_flight.fetching v) ∧
        s1.handles = example_in_flight.handles :=
  ⟨⟨example_in_flight_reachable, by decide⟩,
    C7_helper_release_drains example_in_flight example_in_flight_reachable (by decide)⟩

/-! ## C3: no helper -/

/-- C3: for a dentry with no cached host dentry (whose parent has one, as the
function requires) and a negative host lookup, when no helper is bound
`get_host_dentry` returns `-EIO` after that one lookup, without linking the
dentry on `to_helper` and without sleeping; `to_helper` and the `fetching`
flags are as before the call. -/
theorem C3_no_helper_gives_io_error (s : State) (v : Nat) (sig : Bool) (hd : HostDentry)
    (hc : s.host_dentry v = none) (hp : (s.host_dentry (s.d_parent v)).isSome = true)
    (hl : s.lookup_hash v = .ok hd) (hn : hd.d_inode = none)
    (hh : s.have_helper = false) :
    (get_host_dentry s v sig).res = .ret (.error (- EIO)) ∧
      (get_host_dentry s v sig).log = [.lookup (.ok hd)] ∧
      (get_host_dentry s v sig).st.to_helper = s.to_helper ∧
      (get_host_dentry s v sig).st.fetching = s.fetching := by
  obtain ⟨ph, hph⟩ := Option.isSome_iff_exists.mp hp
  simp [get_host_dentry, get_host_dentry_loop, hc, hph, hl, hn, hh]

/-- C3, at a concrete state: the example system before any helper has come,
asked for dentry 1. -/
theorem C3_witness :
    (example_state.host_dentry 1 = none ∧
      (example_state.host_dentry (example_state.d_parent 1)).isSome = true ∧
      example_state.lookup_hash 1 = .ok ⟨1, none⟩ ∧ (⟨1, none⟩ : HostDentry).d_inode = none ∧
      example_state.have_helper = false) ∧
    ((get_host_dentry example_state 1 false).res = .ret (.error (- EIO)) ∧
      (get_host_dentry example_state 1 false).log = [.lookup (.ok ⟨1, none⟩)] ∧
      (get_host_dentry example_state 1 false).st.to_helper = example_state.to_helper ∧
      (get_host_dentry example_state 1 false).st.fetching = example_state.fetching) :=
  ⟨⟨rfl, rfl, rfl, rfl, rfl⟩,
    C3_no_helper_gives_io_error example_state 1 false ⟨1, none⟩ rfl rfl rfl rfl rfl⟩

/-! ## C1: order of delivery -/

/-- A producer that starts a fetch: it looks the host entry up once, links
the dentry at the head of `to_helper` and goes to sleep. -/
theorem get_host_dentry_starts_fetch (s : State) (v : Nat) (hd : HostDentry)
    (hc : s.host_dentry v = none) (hp : (s.host_dentry (s.d_parent v)).isSome = true)
    (hl : s.lookup_hash v = .ok hd) (hn : hd.d_inode = none)
    (hh : s.have_helper = true) (hf : s.fetching v = false) :
    get_host_dentry s v false =
      ⟨.asleep, { s with fetching := Function.update s.fetching v true,
                         to_helper := v :: s.to_helper },
        [.lookup (.ok hd), .enqueue, .sleep]⟩ := by
  obtain ⟨ph, hph⟩ := Option.isSome_iff_exists.mp hp
  simp [get_host_dentry, get_host_dentry_loop, wait_loop, Out.pre, hc, hph, hl, hn, hh, hf]

/-- Producers for distinct dentries that all start a fetch leave them on
`to_helper` in reverse order, in front of what was there. -/
theorem producers_to_helper (vs : List Nat) :
    ∀ s : State, s.have_helper = true → vs.Nodup →
      (∀ v ∈ vs, s.fetching v = false ∧ s.host_dentry v = none ∧
        (s.host_dentry (s.d_parent v)).isSome = true ∧
        ∃ hd, s.lookup_hash v = .ok hd ∧ hd.d_inode = none) →
      (producers s vs).to_helper = vs.reverse ++ s.to_helper := by
  induction vs with
  | nil => intro s _ _ _; rfl
  | cons a rest ih =>
    intro s hh hnd hv
    obtain ⟨hf, hc, hp, hd, hl, hn⟩ := hv a (List.mem_cons_self a rest)
    rw [List.nodup_cons] at hnd
    have he := get_host_dentry_starts_fetch s a hd hc hp hl hn hh hf
    show (producers (get_host_dentry s a false).st rest).to_helper = _
    have key := ih (get_host_dentry s a false).st
    rw [he] at key ⊢
    dsimp only at key ⊢
    rw [key hh hnd.2]
    · simp
    · intro u hu
      have hua : u ≠ a := fun e => hnd.1 (e ▸ hu)
      obtain ⟨hf1, hc1, hp1, h4⟩ := hv u (List.mem_cons_of_mem a hu)
      exact ⟨by simp [Function.update_noteq hua, hf1], hc1, hp1, h4⟩

theorem helper_read_pops (s : State) (count : Nat) (filp_ok : Bool) (fd : Int)
    (info : Nat) (rest : List Nat) (hq : s.to_helper = info :: rest) (hc : 20 ≤ count) :
    (lazyfs_helper_read s count false filp_ok fd).sent = some info ∧
      (lazyfs_helper_read s count false filp_ok fd).st.to_helper = rest := by
  have hc2 : ¬ count < 20 := by omega
  unfold lazyfs_helper_read send_to_helper
  simp only [hc2, if_false, hq]
  split_ifs <;> simp

theorem helper_reads_take (rs : List (Nat × Bool × Int)) :
    ∀ s : State, (∀ r ∈ rs, 20 ≤ r.1) → rs.length ≤ s.to_helper.length →
      helper_reads s rs = (s.to_helper.take rs.length).map some := by
  induction rs with
  | nil => intro s _ _; simp [helper_reads]
  | cons r rest ih =>
    intro s hc hlen
    obtain ⟨count, filp_ok, fd⟩ := r
    cases hq : s.to_helper with
    | nil => rw [hq] at hlen; simp at hlen
    | cons info q =>
      have hp := helper_read_pops s count filp_ok fd info q hq
        (hc _ (List.mem_cons_self _ _))
      unfold helper_reads
      simp only [hp.1]
      rw [ih _ (fun r hr => hc r (List.mem_cons_of_mem _ hr))
        (by rw [hp.2]; rw [hq] at hlen; simpa using hlen)]
      rw [hp.2]
      simp

/-- C1 as stated fails: with a helper bound, dentry 1 is requested first and
dentry 2 second; the first read of the control file hands out dentry 2 and the
second read dentry 1, not 1 then 2. -/
theorem C1_counterexample :
    example_bound.have_helper = true ∧
      helper_reads (producers example_bound [1, 2]) [(20, true, 3), (20, true, 4)]
        = [some 2, some 1] ∧
      helper_reads (producers example_bound [1, 2]) [(20, true, 3), (20, true, 4)]
        ≠ [some 1, some 2] := by
  decide

/-- C1, amended: when distinct dentries `vs` are linked on `to_helper` in that
order by producers while a helper is bound and no read intervenes, the next
reads of the control file (each with a buffer of at least 20 bytes) hand them
out in the reverse order, the most recently linked dentry first, whatever was
on the list before. -/
theorem C1_delivery_is_last_in_first_out (s : State) (vs : List Nat)
    (rs : List (Nat × Bool × Int))
    (hh : s.have_helper = true) (hnd : vs.Nodup)
    (hv : ∀ v ∈ vs, s.fetching v = false ∧ s.host_dentry v = none ∧
        (s.host_dentry (s.d_parent v)).isSome = true ∧
        ∃ hd, s.lookup_hash v = .ok hd ∧ hd.d_inode = none)
    (hlen : rs.length = vs.length) (hc : ∀ r ∈ rs, 20 ≤ r.1) :
    helper_reads (producers s vs) rs = vs.reverse.map some := by
  have hq := producers_to_helper vs s hh hnd hv
  rw [helper_reads_take rs _ hc (by rw [hq]; simp [hlen]), hq, hlen]
  congr 1
  rw [← List.length_reverse vs]
  exact List.take_left _ _

/-- C1 amended, at a concrete input: dentries 1, 2, 3 requested in that order
are handed out as 3, 2, 1. -/
theorem C1_witness :
    (example_bound.have_helper = true ∧ [1, 2, 3].Nodup ∧
      [(20, true, (3 : Int)), (20, true, 4), (20, true, 5)].length = [1, 2, 3].length) ∧
    helper_reads (producers example_bound [1, 2, 3])
      [(20, true, 3), (20, true, 4), (20, true, 5)] = [some 3, some 2, some 1] :=
  ⟨⟨by decide, by decide, by decide⟩,
    C1_delivery_is_last_in_first_out example_bound [1, 2, 3]
      [(20, true, 3), (20, true, 4), (20, true, 5)] (by decide) (by decide)
      (by
        intro v hv
        refine ⟨rfl, ?_, rfl, ⟨v, none⟩, rfl, rfl⟩
        have : v ≠ 0 := by
          intro e; subst e; simp at hv
        simp [example_bound, lazyfs_helper_open, example_state, this])
      (by decide) (by decide)⟩

/-! ## C4: one retry of the host lookup -/

/-- C6 fails on the code: a read that hands out a request with file
descriptor 3 writes the two bytes "3" and NUL and returns 2; there is no
" uid=" part. The helper's `read_from_helper` rejects that message, while it
accepts "3 uid=1000" with its NUL. -/
theorem C6_message_has_no_uid :
    (lazyfs_helper_read example_two_queued 20 false true 3).sent = some 2 ∧
      (lazyfs_helper_read example_two_queued 20 false true 3).buffer = [51, 0] ∧
      (lazyfs_helper_read example_two_queued 20 false true 3).res = .ret 2 ∧
      read_from_helper [51, 0] = none ∧
      read_from_helper [51, 32, 117, 105, 100, 61, 49, 48, 48, 48, 0] = some (3, 1000) := by
  decide

/-! ## C8: a manifest whose last record is not terminated -/

theorem strlen_le (l : List Nat) :
    ∀ i, l[i]? = some 0 → ∃ n, strlen l = some n ∧ n ≤ i := by
  induction l with
  | nil => intro i h; simp at h
  | cons c rest ih =>
    intro i h
    unfold strlen
    by_cases hc : c = 0
    · exact ⟨0, by simp [hc], Nat.zero_le _⟩
    · cases i with
      | zero => simp at h; exact absurd h hc
      | succ j =>
        simp only [List.getElem?_cons_succ] at h
        obtain ⟨n, hn, hle⟩ := ih j h
        exact ⟨n + 1, by simp [hc, hn], by omega⟩

theorem strlen_nul (l : List Nat) :
    ∀ n, strlen l = some n → l[n]? = some 0 := by
  induction l with
  | nil => intro n h; simp [strlen] at h
  | cons c rest ih =>
    intro n h
    unfold strlen at h
    by_cases hc : c = 0
    · simp [hc] at h
      subst h
      simp [hc]
    · simp only [hc, if_false, Option.map_eq_some'] at h
      obtain ⟨m, hm, rfl⟩ := h
      simpa using ih m hm

theorem loop_unterminated (alloc : Nat → Bool) (listing : List Nat) (size c : Nat)
    (hlen : listing.length = size + 1) (hsent : listing[size]? = some 0)
    (hlast : listing[size - 1]? = some c) (hc : c ≠ 0) :
    ∀ fuel offset children, offset < size → size ≤ offset + fuel →
      (add_dentries_loop fuel alloc listing size offset children).res = .ret (- EIO) := by
  intro fuel
  induction fuel with
  | zero => intro offset children h1 h2; omega
  | succ n ih =>
    intro offset children h1 h2
    unfold add_dentries_loop
    simp only [h1, if_true]
    have hin : offset < listing.length := by omega
    rw [List.getElem?_eq_getElem hin]
    simp only
    split
    · rfl
    · have hs : (listing.drop (offset + 1))[size - (offset + 1)]? = some 0 := by
        rw [List.getElem?_drop]
        have : offset + 1 + (size - (offset + 1)) = size := by omega
        rw [this]; exact hsent
      obtain ⟨len, hl, hle⟩ := strlen_le _ _ hs
      rw [hl]
      simp only
      have hnul := strlen_nul _ _ hl
      rw [List.getElem?_drop] at hnul
      by_cases hend : offset + 1 + (len + 1) = size + 1
      · simp [hend]
      · simp only [hend, if_false]
        have hlt : offset + 1 + (len + 1) < size := by
          by_contra hge
          have hidx : offset + 1 + len = size - 1 := by omega
          rw [hidx, hlast] at hnul
          simp at hnul
          exact hc hnul
        split
        · exact ih _ _ hlt (by omega)
        · exact ih _ _ hlt (by omega)

/-- C8: a manifest that begins with the magic "LazyFS\n", has more bytes after
it and whose last byte `c` is not NUL is rejected: `add_dentries_from_list`,
called as `ensure_cached` calls it, returns `-EIO`. -/
theorem C8_unterminated_manifest_rejected (alloc : Nat → Bool) (children : List Dentry)
    (rest : List Nat) (c : Nat) (hlast : rest.getLast? = some c) (hc : c ≠ 0) :
    (parse_manifest alloc children (MAGIC7 ++ rest)).res = .ret (- EIO) := by
  have hne : rest ≠ [] := by
    intro h; rw [h] at hlast; simp at hlast
  have hpos : 0 < rest.length := List.length_pos.mpr hne
  unfold parse_manifest add_dentries_from_list
  have hsize : (MAGIC7 ++ rest).length = 7 + rest.length := by
    rw [List.length_append]; rfl
  have hmagic : strncmp_eq 7 (MAGIC7 ++ rest ++ [0]) LAZYFS_MAGIC = true := by
    simp [MAGIC7, LAZYFS_MAGIC, strncmp_eq]
  have h7 : ¬ (MAGIC7 ++ rest).length < 7 := by omega
  simp only [hmagic, h7, decide_False, Bool.not_true, Bool.or_self, Bool.false_eq_true,
    if_false]
  refine loop_unterminated alloc _ _ c ?_ ?_ ?_ hc _ _ _ ?_ ?_
  · rw [List.length_append]; rfl
  · exact List.getElem?_concat_length _ _
  · rw [List.getElem?_append_left (by omega)]
    rw [← List.getLast?_eq_getElem?]
    rw [List.getLast?_append_of_ne_nil _ hne]
    exact hlast
  · omega
  · omega

/-- C8, at a concrete input: the manifest "LazyFS\n" "fA" NUL "dBC" without
the final NUL. -/
theorem C8_witness :
    ([102, 65, 0, 100, 66, 67].getLast? = some 67 ∧ 67 ≠ 0) ∧
      (parse_manifest (fun _ => true) [] (MAGIC7 ++ [102, 65, 0, 100, 66, 67])).res
        = .ret (- EIO) :=
  ⟨⟨by decide, by decide⟩,
    C8_unterminated_manifest_rejected (fun _ => true) [] [102, 65, 0, 100, 66, 67] 67
      (by decide) (by decide)⟩

/-! ## C9: the dynamic manifest -/

/-- C9 fails on the code: for the 15 bytes "LazyFS Dynamic\n" that the helper
writes for a top-level directory, `add_dentries_from_list` returns `-EIO` (byte
6 is a space, not the newline of the magic "LazyFS\n") and leaves the
children of the directory as they were. -/
theorem C9_dynamic_manifest_rejected (alloc : Nat → Bool) (children : List Dentry) :
    DYNAMIC_MANIFEST.length = 15 ∧
      parse_manifest alloc children DYNAMIC_MANIFEST = ⟨.ret (- EIO), children⟩ := by
  constructor
  · rfl
  · rfl

/-! ## C10: records with an empty name -/

theorem strlen_append (name rest : List Nat) (h : 0 ∉ name) :
    strlen (name ++ 0 :: rest) = some name.length := by
  induction name with
  | nil => simp [strlen]
  | cons c tl ih =>
    have hc : c ≠ 0 := fun e => h (e ▸ List.mem_cons_self _ _)
    have htl : 0 ∉ tl := fun hm => h (List.mem_cons_of_mem _ hm)
    simp [strlen, hc, ih htl]

theorem records_length (entries : List (Nat × List Nat)) :
    entries.length ≤ (records entries).length := by
  induction entries with
  | nil => simp [records]
  | cons e tl ih => simp [records]; omega

theorem d_lookup_some {children : List Dentry} {name : List Nat} {d : Dentry}
    (h : d_lookup children name = some d) :
    d ∈ children ∧ d.unhashed = false ∧ d.name = name := by
  unfold d_lookup at h
  have h1 := List.find?_some h
  have h2 := List.mem_of_find?_eq_some h
  simp at h1
  exact ⟨h2, h1.1, h1.2⟩

theorem loop_records (alloc : Nat → Bool) (listing : List Nat) (size : Nat) :
    ∀ (entries : List (Nat × List Nat)) (fuel offset : Nat) (children : List Dentry),
      listing.drop offset = records entries ++ [0] →
      offset + (records entries).length = size → entries.length < fuel →
      (∀ e ∈ entries, (kind_mode e.1).isSome = true ∧ 0 ∉ e.2) →
      (add_dentries_loop fuel alloc listing size offset children).res = .ret 0 ∧
        (∀ d ∈ children,
          d ∈ (add_dentries_loop fuel alloc listing size offset children).children) ∧
        ((∀ n, alloc n = true) → ∀ e ∈ entries,
          ∃ d ∈ (add_dentries_loop fuel alloc listing size offset children).children,
            d.unhashed = false ∧ d.name = e.2) := by
  intro entries
  induction entries with
  | nil =>
    intro fuel offset children _ hsize hfuel _
    cases fuel with
    | zero => simp at hfuel
    | succ n =>
      simp only [records, List.length_nil, Nat.add_zero] at hsize
      unfold add_dentries_loop
      simp [hsize]
  | cons e tl ih =>
    intro fuel offset children hdrop hsize hfuel hvalid
    obtain ⟨k, name⟩ := e
    obtain ⟨hk, hname⟩ := hvalid (k, name) (List.mem_cons_self _ _)
    obtain ⟨mode, hmode⟩ := Option.isSome_iff_exists.mp hk
    cases fuel with
    | zero => simp at hfuel
    | succ n =>
      simp only [records, List.cons_append, List.append_assoc, List.singleton_append]
        at hdrop
      have hsz : offset + (name.length + 2 + (records tl).length) = size := by
        simp [records] at hsize
        omega
      have hlt : offset < size := by omega
      have hk0 : listing[offset]? = some k := by
        have := congrArg (fun l => l[0]?) hdrop
        simpa [List.getElem?_drop] using this
      have hd1 : listing.drop (offset + 1) = name ++ 0 :: (records tl ++ [0]) := by
        rw [← List.tail_drop, hdrop]; rfl
      have hd2 : listing.drop (offset + 1 + (name.length + 1)) = records tl ++ [0] := by
        rw [← List.drop_drop, hd1]
        have : name ++ 0 :: (records tl ++ [0]) = (name ++ [0]) ++ (records tl ++ [0]) := by
          simp
        rw [this]
        exact List.drop_left' (by simp)
      have hne : ¬ offset + 1 + (name.length + 1) = size + 1 := by omega
      have htake : List.take name.length (name ++ 0 :: (records tl ++ [0])) = name :=
        List.take_left' rfl
      have hih := ih n (offset + 1 + (name.length + 1))
      unfold add_dentries_loop
      simp only [hlt, if_true, hk0, hmode, hd1, strlen_append name _ hname, hne, if_false,
        htake]
      split
      · next d hfound =>
        obtain ⟨r1, r2, r3⟩ := hih children hd2 (by omega) (by simpa using hfuel)
          (fun e he => hvalid e (List.mem_cons_of_mem _ he))
        refine ⟨r1, r2, fun hal e he => ?_⟩
        rcases List.mem_cons.mp he with rfl | he
        · obtain ⟨m1, m2, m3⟩ := d_lookup_some hfound
          exact ⟨d, r2 d m1, m2, m3⟩
        · exact r3 hal e he
      · obtain ⟨r1, r2, r3⟩ := hih (new_dentry (alloc offset) children name mode 0 0) hd2
          (by omega) (by simpa using hfuel)
          (fun e he => hvalid e (List.mem_cons_of_mem _ he))
        refine ⟨r1, fun d hd => r2 d ?_, fun hal e he => ?_⟩
        · unfold new_dentry d_add
          split
          · exact List.mem_append_left _ hd
          · exact hd
        · rcases List.mem_cons.mp he with rfl | he
          · refine ⟨⟨name, some ⟨mode ||| 0o444, 0, 0⟩, false⟩, r2 _ ?_, rfl, rfl⟩
            simp [new_dentry, d_add, hal offset]
          · exact r3 hal e he

/-- C10 as stated fails: the manifest "LazyFS\n" "f" NUL has one record, with
an empty name; the parser returns 0 and adds a regular-file VN whose name is
empty to the (empty) directory. -/
theorem C10_counterexample :
    parse_manifest (fun _ => true) [] (MAGIC7 ++ [102, 0])
      = ⟨.ret 0, [⟨[], some ⟨S_IFREG ||| 0o444, 0, 0⟩, false⟩]⟩ := by
  decide

/-- C10, amended: a manifest made of the magic and of records with valid kind
bytes and NUL-free names is accepted also when names are empty:
`add_dentries_from_list` returns 0, keeps the children the directory had, and,
when its allocations succeed, the directory afterwards has a hashed child for
every listed name, the empty name included. -/
theorem C10_empty_names_are_accepted (alloc : Nat → Bool) (children : List Dentry)
    (entries : List (Nat × List Nat))
    (hvalid : ∀ e ∈ entries, (kind_mode e.1).isSome = true ∧ 0 ∉ e.2) :
    (parse_manifest alloc children (MAGIC7 ++ records entries)).res = .ret 0 ∧
      (∀ d ∈ children,
        d ∈ (parse_manifest alloc children (MAGIC7 ++ records entries)).children) ∧
      ((∀ n, alloc n = true) → ∀ e ∈ entries,
        ∃ d ∈ (parse_manifest alloc children (MAGIC7 ++ records entries)).children,
          d.unhashed = false ∧ d.name = e.2) := by
  unfold parse_manifest add_dentries_from_list
  have hsize : (MAGIC7 ++ records entries).length = 7 + (records entries).length := by
    rw [List.length_append]; rfl
  have hmagic : strncmp_eq 7 (MAGIC7 ++ records entries ++ [0]) LAZYFS_MAGIC = true := by
    simp [MAGIC7, LAZYFS_MAGIC, strncmp_eq]
  have h7 : ¬ (MAGIC7 ++ records entries).length < 7 := by omega
  simp only [hmagic, h7, decide_False, Bool.not_true, Bool.or_self, Bool.false_eq_true,
    if_false]
  have hlen := records_length entries
  refine loop_records alloc _ _ entries _ 7 children ?_ ?_ ?_ hvalid
  · rw [List.append_assoc]
    exact List.drop_left' rfl
  · omega
  · omega

/-- C10 amended, at a concrete input: the records "dA" NUL, "f" NUL (empty
name), "xB" NUL. -/
theorem C10_witness :
    (∀ e ∈ [(100, [65]), (102, []), (120, [66])],
        (kind_mode e.1).isSome = true ∧ 0 ∉ e.2) ∧
    ((parse_manifest (fun _ => true) []
        (MAGIC7 ++ records [(100, [65]), (102, []), (120, [66])])).res = .ret 0 ∧
      (∀ d ∈ ([] : List Dentry),
        d ∈ (parse_manifest (fun _ => true) []
          (MAGIC7 ++ records [(100, [65]), (102, []), (120, [66])])).children) ∧
      ((∀ n, (fun _ => true : Nat → Bool) n = true) →
        ∀ e ∈ [(100, [65]), (102, []), (120, [66])],
          ∃ d ∈ (parse_manifest (fun _ => true) []
              (MAGIC7 ++ records [(100, [65]), (102, []), (120, [66])])).children,
            d.unhashed = false ∧ d.name = e.2)) :=
  ⟨by decide,
    C10_empty_names_are_accepted (fun _ => true) [] [(100, [65]), (102, []), (120, [66])]
      (by decide)⟩

/-! ## C11: parsing a serialized list of entries -/

theorem d_lookup_append_none (children : List Dentry) (d : Dentry) (name : List Nat)
    (h : d_lookup children name = none) (hd : d.name ≠ name) :
    d_lookup (children ++ [d]) name = none := by
  unfold d_lookup at h ⊢
  rw [List.find?_append, h]
  simp [hd]

theorem kind_of_byte_cases (c : Nat) (h : (kind_of_byte c).isSome = true) :
    c = 102 ∨ c = 120 ∨ c = 100 ∨ c = 108 := by
  unfold kind_of_byte at h
  by_cases h1 : c = 102
  · exact Or.inl h1
  · by_cases h2 : c = 120
    · exact Or.inr (Or.inl h2)
    · by_cases h3 : c = 100
      · exact Or.inr (Or.inr (Or.inl h3))
      · by_cases h4 : c = 108
        · exact Or.inr (Or.inr (Or.inr h4))
        · simp [h1, h2, h3, h4] at h

theorem kind_round_trip :
    ∀ c ∈ [102, 120, 100, 108],
      kind_of_mode ((kind_mode c).getD 0 ||| 0o444) = kind_of_byte c ∧
        (kind_mode c).isSome = true := by
  decide

theorem entry_dentry_view (e : Nat × List Nat) (h : (kind_of_byte e.1).isSome = true) :
    child_view (entry_dentry e) = entry_view e ∧ (kind_mode e.1).isSome = true := by
  obtain ⟨k, name⟩ := e
  have hk : k ∈ [102, 120, 100, 108] := by
    rcases kind_of_byte_cases k h with rfl | rfl | rfl | rfl <;> simp
  obtain ⟨h1, h2⟩ := kind_round_trip k hk
  refine ⟨?_, h2⟩
  show (name, kind_of_mode ((kind_mode k).getD 0 ||| 0o444), false)
    = (name, kind_of_byte k, false)
  rw [h1]

theorem loop_records_exact (alloc : Nat → Bool) (listing : List Nat) (size : Nat)
    (halloc : ∀ n, alloc n = true) :
    ∀ (entries : List (Nat × List Nat)) (fuel offset : Nat) (children : List Dentry),
      listing.drop offset = records entries ++ [0] →
      offset + (records entries).length = size → entries.length < fuel →
      (∀ e ∈ entries, (kind_mode e.1).isSome = true ∧ 0 ∉ e.2) →
      (entries.map Prod.snd).Nodup →
      (∀ e ∈ entries, d_lookup children e.2 = none) →
      add_dentries_loop fuel alloc listing size offset children
        = ⟨.ret 0, children ++ entries.map entry_dentry⟩ := by
  intro entries
  induction entries with
  | nil =>
    intro fuel offset children _ hsize hfuel _ _ _
    cases fuel with
    | zero => simp at hfuel
    | succ n =>
      simp only [records, List.length_nil, Nat.add_zero] at hsize
      unfold add_dentries_loop
      simp [hsize]
  | cons e tl ih =>
    intro fuel offset children hdrop hsize hfuel hvalid hnd hfresh
    obtain ⟨k, name⟩ := e
    obtain ⟨hk, hname⟩ := hvalid (k, name) (List.mem_cons_self _ _)
    obtain ⟨mode, hmode⟩ := Option.isSome_iff_exists.mp hk
    have hnone : d_lookup children name = none := hfresh (k, name) (List.mem_cons_self _ _)
    simp only [List.map_cons, List.nodup_cons, List.mem_map, not_exists, not_and] at hnd
    cases fuel with
    | zero => simp at hfuel
    | succ n =>
      simp only [records, List.cons_append, List.append_assoc, List.singleton_append]
        at hdrop
      have hsz : offset + (name.length + 2 + (records tl).length) = size := by
        simp [records] at hsize
        omega
      have hlt : offset < size := by omega
      have hk0 : listing[offset]? = some k := by
        have := congrArg (fun l => l[0]?) hdrop
        simpa [List.getElem?_drop] using this
      have hd1 : listing.drop (offset + 1) = name ++ 0 :: (records tl ++ [0]) := by
        rw [← List.tail_drop, hdrop]; rfl
      have hd2 : listing.drop (offset + 1 + (name.length + 1)) = records tl ++ [0] := by
        rw [← List.drop_drop, hd1]
        have : name ++ 0 :: (records tl ++ [0]) = (name ++ [0]) ++ (records tl ++ [0]) := by
          simp
        rw [this]
        exact List.drop_left' (by simp)
      have hne : ¬ offset + 1 + (name.length + 1) = size + 1 := by omega
      have htake : List.take name.length (name ++ 0 :: (records tl ++ [0])) = name :=
        List.take_left' rfl
      have hnew : new_dentry (alloc offset) children name mode 0 0
          = children ++ [entry_dentry (k, name)] := by
        simp [new_dentry, d_add, halloc offset, entry_dentry, hmode]
      unfold add_dentries_loop
      simp only [hlt, if_true, hk0, hmode, hd1, strlen_append name _ hname, hne, if_false,
        htake, hnone, hnew]
      rw [ih n (offset + 1 + (name.length + 1)) (children ++ [entry_dentry (k, name)]) hd2
        (by omega) (by simpa using hfuel)
        (fun e he => hvalid e (List.mem_cons_of_mem _ he)) hnd.2]
      · simp
      · intro e he
        apply d_lookup_append_none _ _ _ (hfresh e (List.mem_cons_of_mem _ he))
        intro heq
        exact hnd.1 e he heq.symm

/-- C11 as stated fails: the entries ('f', "a") and ('d', "a") have valid
kinds and non-empty NUL-free names; parsing their manifest into an empty
directory succeeds but yields one child only, the regular file "a". -/
theorem C11_counterexample :
    (parse_manifest (fun _ => true) []
        (MAGIC7 ++ records [(102, [97]), (100, [97])])).res = .ret 0 ∧
      (parse_manifest (fun _ => true) []
        (MAGIC7 ++ records [(102, [97]), (100, [97])])).children.map child_view
        = [([97], some .regular, false)] ∧
      (parse_manifest (fun _ => true) []
        (MAGIC7 ++ records [(102, [97]), (100, [97])])).children.map child_view
        ≠ [(102, [97]), (100, [97])].map entry_view := by
  decide

/-- C11, amended: for entries with kind bytes in 'f', 'x', 'd', 'l' and
non-empty NUL-free names that are pairwise distinct, parsing the manifest made
of the magic and their records into a directory with no children, when the
allocations of `new_dentry` succeed, returns 0 and yields exactly that
sequence of children: same length, same order, same names, hashed, with the
kinds regular, executable regular, directory, symlink. -/
theorem C11_round_trip_for_distinct_names (alloc : Nat → Bool)
    (entries : List (Nat × List Nat))
    (hk : ∀ e ∈ entries, (kind_of_byte e.1).isSome = true)
    (hn : ∀ e ∈ entries, e.2 ≠ [] ∧ 0 ∉ e.2)
    (hd : (entries.map Prod.snd).Nodup) (ha : ∀ n, alloc n = true) :
    (parse_manifest alloc [] (MAGIC7 ++ records entries)).res = .ret 0 ∧
      (parse_manifest alloc [] (MAGIC7 ++ records entries)).children.map child_view
        = entries.map entry_view := by
  have hmain : parse_manifest alloc [] (MAGIC7 ++ records entries)
      = ⟨.ret 0, entries.map entry_dentry⟩ := by
    unfold parse_manifest add_dentries_from_list
    have hsize : (MAGIC7 ++ records entries).length = 7 + (records entries).length := by
      rw [List.length_append]; rfl
    have hmagic : strncmp_eq 7 (MAGIC7 ++ records entries ++ [0]) LAZYFS_MAGIC = true := by
      simp [MAGIC7, LAZYFS_MAGIC, strncmp_eq]
    have h7 : ¬ (MAGIC7 ++ records entries).length < 7 := by omega
    simp only [hmagic, h7, decide_False, Bool.not_true, Bool.or_self, Bool.false_eq_true,
      if_false]
    have hlen := records_length entries
    rw [loop_records_exact alloc _ _ ha entries _ 7 [] ?_ ?_ ?_ ?_ hd ?_]
    · simp
    · rw [List.append_assoc]
      exact List.drop_left' rfl
    · omega
    · omega
    · exact fun e he => ⟨(entry_dentry_view e (hk e he)).2, (hn e he).2⟩
    · intro e _
      rfl
  rw [hmain]
  refine ⟨rfl, ?_⟩
  simp only [List.map_map]
  apply List.map_congr_left
  intro e he
  exact (entry_dentry_view e (hk e he)).1

/-- C11 amended, at a concrete input: the entries ('d', "A"), ('f', "B"),
('x', "C"), ('l', "D"). -/
theorem C11_witness :
    ((∀ e ∈ [(100, [65]), (102, [66]), (120, [67]), (108, [68])],
        (kind_of_byte e.1).isSome = true) ∧
      (∀ e ∈ [(100, [65]), (102, [66]), (120, [67]), (108, [68])],
        e.2 ≠ [] ∧ 0 ∉ e.2) ∧
      ([(100, [65]), (102, [66]), (120, [67]), (108, [68])].map Prod.snd).Nodup) ∧
    ((parse_manifest (fun _ => true) []
        (MAGIC7 ++ records [(100, [65]), (102, [66]), (120, [67]), (108, [68])])).res
        = .ret 0 ∧
      (parse_manifest (fun _ => true) []
        (MAGIC7 ++ records [(100, [65]), (102, [66]), (120, [67]), (108, [68])])).children.map
          child_view
        = [(100, [65]), (102, [66]), (120, [67]), (108, [68])].map entry_view) :=
  ⟨⟨by decide, by decide, by decide⟩,
    C11_round_trip_for_distinct_names (fun _ => true)
      [(100, [65]), (102, [66]), (120, [67]), (108, [68])]
      (by decide) (by decide) (by decide) (fun _ => rfl)⟩

/-! ## C12: names listed by a new manifest -/

/-- C12 fails on the code: "c" is looked up while the manifest lists only
"a", which leaves a negative dentry "c"; the manifest is then replaced by one
that lists "a" and "c" and `ensure_cached` reads it and returns 0. The parser
found the negative dentry with `d_lookup` and took "c" as existing, so "c" is
still negative: a lookup finds the negative dentry and a readdir with plenty
of room emits ".", ".." and "a" only. -/
theorem C12_listed_name_stays_negative :
    (lazyfs_lookup false example_dir [99] host_lists_a).ptr = .null ∧
      dir_after_lookup_c.children
        = [⟨[97], some ⟨S_IFREG ||| 0o444, 0, 0⟩, false⟩, ⟨[99], none, false⟩] ∧
      (ensure_cached dir_after_lookup_c host_lists_a_c).res = .ret 0 ∧
      dir_after_swap.list_dentry = some 7 ∧
      dir_after_swap.children
        = [⟨[97], some ⟨S_IFREG ||| 0o444, 0, 0⟩, false⟩, ⟨[99], none, false⟩] ∧
      (lazyfs_lookup false dir_after_swap [99] host_lists_a_c).ptr
        = .found ⟨[99], none, false⟩ ∧
      (lazyfs_readdir dir_after_swap.children 0 10).accepted = [[46], [46, 46], [97]] := by
  decide

/-! ## C13: errors of `ensure_cached` in a lookup -/

/-- C13 fails on the code: in a host directory without a manifest
`ensure_cached` fails with `-EIO` (and `lazyfs_dir_open` passes that on), but
`lazyfs_lookup` of the name "x" drops the error and returns NULL, a negative
result, and leaves a negative dentry "x" behind. -/
theorem C13_lookup_drops_the_error :
    (ensure_cached example_dir host_without_manifest).res = .ret (- EIO) ∧
      (lazyfs_dir_open example_dir host_without_manifest).res = .ret (- EIO) ∧
      (lazyfs_lookup false example_dir [120] host_without_manifest).ptr = .null ∧
      (lazyfs_lookup false example_dir [120] host_without_manifest).dir.children
        = [⟨[120], none, false⟩] := by
  decide

/-! ## C14: reading a directory in several calls -/

/-- C14 fails on the code: the directory has the children "a" and "b"; the
first `lazyfs_readdir` call has room for two entries, so ".", ".." are
accepted and "a" is refused, but `f_pos` is already 3; the second call, with
room for five, starts at "b". Over both calls "a" is never accepted, although
the full listing has it. -/
theorem C14_refused_entry_is_skipped :
    (lazyfs_readdir example_children 0 2).accepted = [[46], [46, 46]] ∧
      (lazyfs_readdir example_children 0 2).f_pos = 3 ∧
      (lazyfs_readdir example_children 3 5).accepted = [[98]] ∧
      readdir_calls example_children 0 [2, 5] = [[46], [46, 46], [98]] ∧
      full_listing example_children = [[46], [46, 46], [97], [98]] := by
  decide

/-! ## C19: the manifest token after a failed load -/

/-- C19 fails on the code: `info->list_dentry` is switched to the new manifest
before the manifest is opened, read and parsed. For a manifest with an invalid
kind byte, for a failing `kmalloc` and for a short read, the first
`ensure_cached` returns the error with `list_dentry` already changed, and a
second call on the same unchanged manifest returns 0 as already cached. -/
theorem C19_token_set_before_load :
    example_dir.list_dentry = none ∧
      ((ensure_cached example_dir host_bad_manifest).res = .ret (- EIO) ∧
        (ensure_cached example_dir host_bad_manifest).dir.list_dentry = some 7 ∧
        (ensure_cached (ensure_cached example_dir host_bad_manifest).dir
          host_bad_manifest).res = .ret 0) ∧
      ((ensure_cached example_dir host_no_memory).res = .ret (- ENOMEM) ∧
        (ensure_cached example_dir host_no_memory).dir.list_dentry = some 6 ∧
        (ensure_cached (ensure_cached example_dir host_no_memory).dir
          host_no_memory).res = .ret 0) ∧
      ((ensure_cached example_dir host_short_read).res = .ret (- EIO) ∧
        (ensure_cached example_dir host_short_read).dir.list_dentry = some 6 ∧
        (ensure_cached (ensure_cached example_dir host_short_read).dir
          host_short_read).res = .ret 0) := by
  decide

/-! ## C20: two producers for one directory -/

/-- C20 fails on the code: two calls of `get_host_dentry` for the directory
dentry 1 both sleep on one request; after the helper has created the host
directory and closed the request file, the producer that runs first returns
the host dentry and records it with `set_host_dentry`; the producer that runs
second leaves the loop through the cached `info->host_dentry` and calls
`set_host_dentry` again, whose assertion (`info->host_dentry` must be unset)
fails: `BUG()`. -/
theorem C20_second_producer_hits_bug :
    two_producers_run
      = some (.asleep, .asleep, some 1, .ret (.ok ⟨1, some (S_IFDIR ||| 0o755)⟩), .bug) := by
  decide

/-! ## C15: the mapping of a virtual inode -/

theorem mmap_aliased_stays (a : Nat) (hf : HostFile) :
    (lazyfs_file_mmap (some a) (some hf)).i_mapping = some a := by
  unfold lazyfs_file_mmap
  simp only
  split_ifs <;> simp_all

theorem mmap_calls_aliased (a : Nat) (files : List HostFile) :
    mmap_calls (some a) files = some a := by
  induction files with
  | nil => rfl
  | cons hf rest ih =>
    show mmap_calls (lazyfs_file_mmap (some a) (some hf)).i_mapping rest = some a
    rw [mmap_aliased_stays, ih]

/-- C15 as stated fails: the inode is aliased to mapping 1, the host inode's
mapping is 2, and the host file has no `mmap` operation: the call returns
`-ENODEV`, not `-EBUSY` (the host's `mmap` is not called and the mapping keeps
its value). -/
theorem C15_counterexample :
    (lazyfs_file_mmap (some 1) (some ⟨false, 2, 0, 2⟩)).res = .ret (- ENODEV) ∧
      (lazyfs_file_mmap (some 1) (some ⟨false, 2, 0, 2⟩)).res ≠ .ret (- EBUSY) ∧
      (lazyfs_file_mmap (some 1) (some ⟨false, 2, 0, 2⟩)).called_host = false ∧
      (lazyfs_file_mmap (some 1) (some ⟨false, 2, 0, 2⟩)).i_mapping = some 1 := by
  decide

/-- C15, amended: in every `lazyfs_file_mmap` call with a host file, from any
value of the inode's mapping (so at every point of every sequence of calls):
the mapping changes only when it was the inode's own mapping and the host's
`mmap` was called and returned 0, and it then is the host inode's mapping as
it is after that `mmap`; once aliased it keeps its value through any sequence
of calls; and a call made when the inode is aliased to a mapping different
from the host inode's does not call the host's `mmap`, leaves the mapping as
it is, and returns `-EBUSY` when the host file has an `mmap` operation and
`-ENODEV` when it has none. -/
theorem C15_mapping_is_aliased_once (m : Option Nat) (hf : HostFile) :
    ((lazyfs_file_mmap m (some hf)).i_mapping ≠ m →
        m = none ∧ (lazyfs_file_mmap m (some hf)).called_host = true ∧
          hf.mmap_err = 0 ∧ (lazyfs_file_mmap m (some hf)).res = .ret 0 ∧
          (lazyfs_file_mmap m (some hf)).i_mapping = some hf.i_mapping_after) ∧
      (∀ a, m = some a → ∀ files, mmap_calls m files = some a) ∧
      (∀ a, m = some a → a ≠ hf.i_mapping →
        (lazyfs_file_mmap m (some hf)).called_host = false ∧
          (lazyfs_file_mmap m (some hf)).i_mapping = m ∧
          (lazyfs_file_mmap m (some hf)).res
            = if hf.has_mmap then .ret (- EBUSY) else .ret (- ENODEV)) := by
  refine ⟨?_, ?_, ?_⟩
  · intro h
    unfold lazyfs_file_mmap at h ⊢
    simp only at h ⊢
    split_ifs at h ⊢ <;> simp_all
  · intro a ha files
    rw [ha]
    exact mmap_calls_aliased a files
  · intro a ha hne
    subst ha
    unfold lazyfs_file_mmap
    simp only
    split_ifs <;> simp_all

/-- C15 amended, at a concrete input: an inode aliased to mapping 1 meets a
host file with an `mmap` operation whose inode has mapping 2. -/
theorem C15_witness :
    (((lazyfs_file_mmap (some 1) (some ⟨true, 2, 0, 2⟩)).i_mapping ≠ some 1 →
        some 1 = none ∧ (lazyfs_file_mmap (some 1) (some ⟨true, 2, 0, 2⟩)).called_host = true ∧
          (⟨true, 2, 0, 2⟩ : HostFile).mmap_err = 0 ∧
          (lazyfs_file_mmap (some 1) (some ⟨true, 2, 0, 2⟩)).res = .ret 0 ∧
          (lazyfs_file_mmap (some 1) (some ⟨true, 2, 0, 2⟩)).i_mapping
            = some (⟨true, 2, 0, 2⟩ : HostFile).i_mapping_after) ∧
      (∀ a, some 1 = some a → ∀ files, mmap_calls (some 1) files = some a) ∧
      (∀ a, some 1 = some a → a ≠ (⟨true, 2, 0, 2⟩ : HostFile).i_mapping →
        (lazyfs_file_mmap (some 1) (some ⟨true, 2, 0, 2⟩)).called_host = false ∧
          (lazyfs_file_mmap (some 1) (some ⟨true, 2, 0, 2⟩)).i_mapping = some 1 ∧
          (lazyfs_file_mmap (some 1) (some ⟨true, 2, 0, 2⟩)).res
            = if (⟨true, 2, 0, 2⟩ : HostFile).has_mmap then .ret (- EBUSY)
              else .ret (- ENODEV))) ∧
    (lazyfs_file_mmap (some 1) (some ⟨true, 2, 0, 2⟩)).res = .ret (- EBUSY) ∧
    (lazyfs_file_mmap none (some ⟨true, 2, 0, 5⟩)).i_mapping = some 5 :=
  ⟨C15_mapping_is_aliased_once (some 1) ⟨true, 2, 0, 2⟩, by decide, by decide⟩

/-! ## C16: the buffer after `uri_ensure_absolute` -/

/-- C17 fails on the code: the comment of `uri_ensure_absolute` says "0 on
success", but the function returns 1 when the uri is already absolute and 1
when the joined uri fits ("leaf.html" joined to "http://foo.org/dir" in 32
bytes), and returns 0 when the joined uri does not fit (28 bytes). -/
theorem C17_returns_one_on_success :
    (uri_ensure_absolute (FOO_DIR ++ 0 :: List.replicate 13 1) 32 (FOO_DIR ++ [0])).map
        Prod.fst = some 1 ∧
      (uri_ensure_absolute (LEAF_HTML ++ 0 :: List.replicate 22 1) 32 (FOO_DIR ++ [0])).map
        Prod.fst = some 1 ∧
      (uri_ensure_absolute (LEAF_HTML ++ 0 :: List.replicate 22 1) 32 (FOO_DIR ++ [0])).map
        Prod.snd = some (FOO_DIR_LEAF ++ 0 :: List.replicate 3 1) ∧
      (uri_ensure_absolute (LEAF_HTML ++ 0 :: List.replicate 18 1) 28 (FOO_DIR ++ [0])).map
        Prod.fst = some 0 := by
  decide

/-! ## C18: `build_uri` -/

theorem loop_safe (alloc : Nat → Bool) (listing : List Nat) (size : Nat)
    (hlen : listing.length = size + 1) (hsent : listing[size]? = some 0) :
    ∀ fuel offset children, offset ≤ size → size < offset + fuel →
      (add_dentries_loop fuel alloc listing size offset children).res = .ret 0 ∨
        (add_dentries_loop fuel alloc listing size offset children).res = .ret (- EIO) := by
  intro fuel
  induction fuel with
  | zero => intro offset children h1 h2; omega
  | succ n ih =>
    intro offset children h1 h2
    unfold add_dentries_loop
    by_cases hlt : offset < size
    · simp only [hlt, if_true]
      have hin : offset < listing.length := by omega
      rw [List.getElem?_eq_getElem hin]
      simp only
      split
      · exact Or.inr rfl
      · have hs : (listing.drop (offset + 1))[size - (offset + 1)]? = some 0 := by
          rw [List.getElem?_drop]
          have : offset + 1 + (size - (offset + 1)) = size := by omega
          rw [this]; exact hsent
        obtain ⟨len, hl, hle⟩ := strlen_le _ _ hs
        rw [hl]
        simp only
        by_cases hend : offset + 1 + (len + 1) = size + 1
        · simp [hend]
        · simp only [hend, if_false]
          split
          · exact ih _ _ (by omega) (by omega)
          · exact ih _ _ (by omega) (by omega)
    · have heq : offset = size := by omega
      simp [hlt, heq]

theorem loop_fuel (alloc : Nat → Bool) (listing : List Nat) (size : Nat)
    (hlen : listing.length = size + 1) (hsent : listing[size]? = some 0) :
    ∀ f1 f2 offset children, offset ≤ size → size < offset + f1 → size < offset + f2 →
      add_dentries_loop f1 alloc listing size offset children
        = add_dentries_loop f2 alloc listing size offset children := by
  intro f1
  induction f1 with
  | zero => intro f2 offset children h1 h2 _; omega
  | succ n ih =>
    intro f2 offset children h1 h2 h3
    cases f2 with
    | zero => omega
    | succ m =>
      unfold add_dentries_loop
      by_cases hlt : offset < size
      · simp only [hlt, if_true]
        have hin : offset < listing.length := by omega
        rw [List.getElem?_eq_getElem hin]
        simp only
        split
        · rfl
        · have hs : (listing.drop (offset + 1))[size - (offset + 1)]? = some 0 := by
            rw [List.getElem?_drop]
            have : offset + 1 + (size - (offset + 1)) = size := by omega
            rw [this]; exact hsent
          obtain ⟨len, hl, hle⟩ := strlen_le _ _ hs
          rw [hl]
          simp only
          by_cases hend : offset + 1 + (len + 1) = size + 1
          · simp [hend]
          · simp only [hend, if_false]
            split
            · exact ih m _ _ (by omega) (by omega) (by omega)
            · exact ih m _ _ (by omega) (by omega) (by omega)
      · simp [hlt]

/-- C21: for every buffer of `size + 1` bytes whose last byte, `listing[size]`,
is NUL, whatever the other bytes are: `add_dentries_from_list` ends by
returning 0 or `-EIO`. It does not run out of fuel (the offset grows in every
iteration, and any larger fuel gives the same result), it reads no byte
outside the `size + 1` bytes of the buffer, and it does not reach its final
`BUG()`: when the record loop is left, `offset == size`. -/
theorem C21_parser_ends_in_bounds (alloc : Nat → Bool) (children : List Dentry)
    (listing : List Nat) (size : Nat)
    (hlen : listing.length = size + 1) (hsent : listing[size]? = some 0) :
    ((add_dentries_from_list alloc children listing size).res = .ret 0 ∨
        (add_dentries_from_list alloc children listing size).res = .ret (- EIO)) ∧
      (add_dentries_from_list alloc children listing size).res ≠ .nofuel ∧
      (add_dentries_from_list alloc children listing size).res ≠ .fault ∧
      (add_dentries_from_list alloc children listing size).res ≠ .bug ∧
      (7 ≤ size → ∀ fuel, size ≤ fuel →
        add_dentries_loop fuel alloc listing size 7 children
          = add_dentries_loop size alloc listing size 7 children) := by
  have hmain : (add_dentries_from_list alloc children listing size).res = .ret 0 ∨
      (add_dentries_from_list alloc children listing size).res = .ret (- EIO) := by
    unfold add_dentries_from_list
    split
    · exact Or.inr rfl
    · next hcond =>
      have h7 : 7 ≤ size := by
        by_contra h
        apply hcond
        have : size < 7 := by omega
        simp [this]
      exact loop_safe alloc listing size hlen hsent size 7 children h7 (by omega)
  refine ⟨hmain, ?_, ?_, ?_, fun h7 fuel hf => ?_⟩
  · rcases hmain with h | h <;> rw [h] <;> simp
  · rcases hmain with h | h <;> rw [h] <;> simp
  · rcases hmain with h | h <;> rw [h] <;> simp
  · exact loop_fuel alloc listing size hlen hsent fuel size 7 children h7 (by omega) (by omega)

/-- C21, at concrete inputs: a buffer holding "LazyFS\n" "fA" NUL and the
sentinel NUL (size 10), for which the parser returns 0. -/
theorem C21_witness :
    ((MAGIC7 ++ [102, 65, 0] ++ [0]).length = 10 + 1 ∧
      (MAGIC7 ++ [102, 65, 0] ++ [0])[10]? = some 0) ∧
    (add_dentries_from_list (fun _ => true) [] (MAGIC7 ++ [102, 65, 0] ++ [0]) 10).res
      = .ret 0 ∧
    (((add_dentries_from_list (fun _ => true) [] (MAGIC7 ++ [102, 65, 0] ++ [0]) 10).res
          = .ret 0 ∨
        (add_dentries_from_list (fun _ => true) [] (MAGIC7 ++ [102, 65, 0] ++ [0]) 10).res
          = .ret (- EIO)) ∧
      (add_dentries_from_list (fun _ => true) [] (MAGIC7 ++ [102, 65, 0] ++ [0]) 10).res
        ≠ .nofuel ∧
      (add_dentries_from_list (fun _ => true) [] (MAGIC7 ++ [102, 65, 0] ++ [0]) 10).res
        ≠ .fault ∧
      (add_dentries_from_list (fun _ => true) [] (MAGIC7 ++ [102, 65, 0] ++ [0]) 10).res
        ≠ .bug ∧
      (7 ≤ 10 → ∀ fuel, 10 ≤ fuel →
        add_dentries_loop fuel (fun _ => true) (MAGIC7 ++ [102, 65, 0] ++ [0]) 10 7 []
          = add_dentries_loop 10 (fun _ => true) (MAGIC7 ++ [102, 65, 0] ++ [0]) 10 7 [])) :=
  ⟨⟨by decide, by decide⟩, by decide,
    C21_parser_ends_in_bounds (fun _ => true) [] (MAGIC7 ++ [102, 65, 0] ++ [0]) 10
      (by decide) (by decide)⟩

/-! ## C22: `get_host_dentry` on a symlink -/

end LazyFS
